import Mathlib

set_option maxRecDepth 4000

/-!
Verification development for the QQ chat-archive message reconstruction
engine (`chat_export/old.py` and `chat_export/mods/features/export_c2c.py`).
The Python source is shallowly embedded: byte strings become `List Nat`,
the output of the external schema-less protobuf decoder becomes the
inductive `PBValue`, Python dictionaries become association lists with
Python insertion/overwrite semantics, and code that can raise an exception
returns `Except Unit`.
-/

/-- Characters of the newline sentinel token `[%\n%]` (a literal backslash
followed by the letter n between percent signs). -/
def sentinelToken : List Char := ['[', '%', '\\', 'n', '%', ']']

/-- Replace every newline character by the sentinel token
(`text.replace("\n", "[%\\n%]")` on the character list). -/
def sanitizeChars : List Char → List Char
  | [] => []
  | '\n' :: t => sentinelToken ++ sanitizeChars t
  | c :: t => c :: sanitizeChars t

/-- Embedding of `_sanitize_newlines` from `old.py` (string case; every call
site passes a `str`). -/
def sanitize_newlines (s : String) : String :=
  String.mk (sanitizeChars s.data)

/-- The writer-side inverse substitution the spec's round-trip property
talks about: each occurrence of the sentinel token becomes a newline. -/
def desanitizeChars : List Char → List Char
  | '[' :: '%' :: '\\' :: 'n' :: '%' :: ']' :: rest => '\n' :: desanitizeChars rest
  | c :: rest => c :: desanitizeChars rest
  | [] => []

/-- String form of the sentinel back-substitution. -/
def desanitizeStr (s : String) : String :=
  String.mk (desanitizeChars s.data)

/-- Python whitespace characters relevant to `str.strip()` and `\s`
(ASCII fragment). -/
def isPySpace (c : Char) : Bool :=
  c = ' ' || c = '\t' || c = '\n' || c = '\r' || c = Char.ofNat 11 || c = Char.ofNat 12

/-- `str.strip()`: drop whitespace from both ends. -/
def pyStrip (l : List Char) : List Char :=
  ((l.dropWhile isPySpace).reverse.dropWhile isPySpace).reverse

/-- One step of UTF-8 decoding: given the first byte and the remaining
bytes, either decode one scalar value (returning the unread rest) or
report failure, consuming the maximal invalid subpart as CPython does. -/
def utf8Step (b : Nat) (rest : List Nat) : Option Char × List Nat :=
  if b < 0x80 then (some (Char.ofNat b), rest)
  else if b < 0xC2 then (none, rest)
  else if b < 0xE0 then
    match rest with
    | b2 :: r2 =>
      if 0x80 ≤ b2 ∧ b2 < 0xC0 then
        (some (Char.ofNat ((b - 0xC0) * 64 + (b2 - 0x80))), r2)
      else (none, rest)
    | [] => (none, [])
  else if b < 0xF0 then
    match rest with
    | b2 :: r2 =>
      if (if b = 0xE0 then 0xA0 else 0x80) ≤ b2 ∧ b2 < (if b = 0xED then 0xA0 else 0xC0) then
        match r2 with
        | b3 :: r3 =>
          if 0x80 ≤ b3 ∧ b3 < 0xC0 then
            (some (Char.ofNat ((b - 0xE0) * 4096 + (b2 - 0x80) * 64 + (b3 - 0x80))), r3)
          else (none, r2)
        | [] => (none, [])
      else (none, rest)
    | [] => (none, [])
  else if b < 0xF5 then
    match rest with
    | b2 :: r2 =>
      if (if b = 0xF0 then 0x90 else 0x80) ≤ b2 ∧ b2 < (if b = 0xF4 then 0x90 else 0xC0) then
        match r2 with
        | b3 :: r3 =>
          if 0x80 ≤ b3 ∧ b3 < 0xC0 then
            match r3 with
            | b4 :: r4 =>
              if 0x80 ≤ b4 ∧ b4 < 0xC0 then
                (some (Char.ofNat ((b - 0xF0) * 262144 + (b2 - 0x80) * 4096 +
                  (b3 - 0x80) * 64 + (b4 - 0x80))), r4)
              else (none, r3)
            | [] => (none, [])
          else (none, r2)
        | [] => (none, [])
      else (none, rest)
    | [] => (none, [])
  else (none, rest)

/-- Fueled UTF-8 decoding loop; `strict` makes invalid input fail,
otherwise `repl` (if any) is emitted per invalid subpart. The fuel is
always instantiated with the byte count, which suffices because each step
consumes at least the leading byte. -/
def utf8Go (strict : Bool) (repl : Option Char) : Nat → List Nat → Option (List Char)
  | _, [] => some []
  | 0, _ => some []
  | fuel + 1, b :: rest =>
    match utf8Step b rest with
    | (some c, r) => (utf8Go strict repl fuel r).map (c :: ·)
    | (none, r) =>
      if strict then none
      else (utf8Go strict repl fuel r).map (fun t =>
        match repl with
        | some ch => ch :: t
        | none => t)

/-- `bytes.decode("utf-8", "ignore")`. -/
def utf8DecodeIgnore (bs : List Nat) : String :=
  String.mk ((utf8Go false none bs.length bs).getD [])

/-- `bytes.decode("utf-8", errors="replace")`. -/
def utf8DecodeReplace (bs : List Nat) : String :=
  String.mk ((utf8Go false (some (Char.ofNat 0xFFFD)) bs.length bs).getD [])

/-- `bytes.decode("utf-8")` (strict): `none` models a raised
`UnicodeDecodeError`. -/
def utf8DecodeStrict (bs : List Nat) : Option String :=
  (utf8Go true none bs.length bs).map String.mk

/-- The base64 alphabet as a character table. -/
def b64Alphabet : List Char :=
  "ABCDEFGHIJKLMNOPQRSTUVWXYZabcdefghijklmnopqrstuvwxyz0123456789+/".data

/-- Index into the base64 alphabet. -/
def b64Char (n : Nat) : Char := (b64Alphabet.getD n 'A')

/-- `base64.b64encode(...)` over byte lists, with `=` padding. -/
def b64encodeChars : List Nat → List Char
  | [] => []
  | [a] =>
    let a := a % 256
    [b64Char (a / 4), b64Char (a % 4 * 16), '=', '=']
  | [a, b] =>
    let a := a % 256; let b := b % 256
    [b64Char (a / 4), b64Char (a % 4 * 16 + b / 16), b64Char (b % 16 * 4), '=']
  | a :: b :: c :: rest =>
    let a := a % 256; let b := b % 256; let c := c % 256
    b64Char (a / 4) :: b64Char (a % 4 * 16 + b / 16) ::
      b64Char (b % 16 * 4 + c / 64) :: b64Char (c % 64) :: b64encodeChars rest

/-- `base64.b64encode(content).decode("ascii")`. -/
def b64encode (bs : List Nat) : String := String.mk (b64encodeChars bs)

/-! ## The decoded-node data model

`blackboxprotobuf.decode_message` returns a nested mapping from
string-formatted field ids to scalars (int, bytes, str), nested mappings,
or repeated values (lists). -/

inductive PBValue where
  | int (n : Int)
  | bytes (bs : List Nat)
  | str (s : String)
  | dict (entries : List (String × PBValue))
  | list (items : List PBValue)

/-- Python truthiness of a decoded value. -/
def pyTruthy : PBValue → Bool
  | .int n => n != 0
  | .bytes bs => !bs.isEmpty
  | .str s => s != ""
  | .dict d => !d.isEmpty
  | .list l => !l.isEmpty

/-- `d.get(k)` on an association list (first binding wins, as Python keys
are unique per level). -/
def pbGet (d : List (String × PBValue)) (k : String) : Option PBValue :=
  (d.find? (fun p => p.1 = k)).map (·.2)

/-- `d.get(k, default)`. -/
def pbGetD (d : List (String × PBValue)) (k : String) (v : PBValue) : PBValue :=
  (pbGet d k).getD v

/-- Python dict assignment `d[k] = v`: overwrite in place if the key
exists (keeping its position), append otherwise. -/
def pyInsert {α : Type} : List (String × α) → String → α → List (String × α)
  | [], k, v => [(k, v)]
  | (k0, v0) :: t, k, v =>
    if k0 = k then (k, v) :: t else (k0, v0) :: pyInsert t k v

/-- Integer-keyed cache assignment, same overwrite semantics. -/
def cacheInsert : List (Int × String) → Int → String → List (Int × String)
  | [], k, v => [(k, v)]
  | (k0, v0) :: t, k, v =>
    if k0 = k then (k, v) :: t else (k0, v0) :: cacheInsert t k v

/-- Integer-keyed cache lookup. -/
def cacheGet (c : List (Int × String)) (k : Int) : Option String :=
  (c.find? (fun p => p.1 = k)).map (·.2)

/-- `bytes.decode("utf-8", "ignore")` on a decoded value; a non-bytes
value has no `decode` method, which raises (`Except.error`). -/
def pbDecodeIgnore : PBValue → Except Unit String
  | .bytes bs => .ok (utf8DecodeIgnore bs)
  | _ => .error ()

/-- Strict `bytes.decode("utf-8")` on a decoded value. -/
def pbDecodeStrict : PBValue → Except Unit String
  | .bytes bs =>
    match utf8DecodeStrict bs with
    | some s => .ok s
    | none => .error ()
  | _ => .error ()

/-- `v in {int-keyed dict}`: an unhashable value (list, dict) raises a
`TypeError`; otherwise true exactly for a matching int key. -/
def pyIntKeyMem (v : Option PBValue) (keys : List Int) : Except Unit Bool :=
  match v with
  | some (.list _) => .error ()
  | some (.dict _) => .error ()
  | some (.int n) => .ok (keys.contains n)
  | _ => .ok false

/-- Cache membership/lookup keyed by the raw decoded value: only an int
matches; unhashable values raise. -/
def cacheGetPB (c : List (Int × String)) (v : Option PBValue) : Except Unit (Option String) :=
  match v with
  | some (.list _) => .error ()
  | some (.dict _) => .error ()
  | some (.int n) => .ok (cacheGet c n)
  | _ => .ok none

/-! ## Python `str()` / `repr()` of decoded values (used by f-strings) -/

/-- One character of a `bytes` repr: printable ASCII passes through,
backslash, quote and control characters are escaped. -/
def byteReprChar (b : Nat) : List Char :=
  let b := b % 256
  if b = 92 then ['\\', '\\']
  else if b = 39 then ['\\', Char.ofNat 39]
  else if b = 9 then ['\\', 't']
  else if b = 10 then ['\\', 'n']
  else if b = 13 then ['\\', 'r']
  else if 32 ≤ b ∧ b < 127 then [Char.ofNat b]
  else
    let hex := fun n => (List.getD "0123456789abcdef".data n '0')
    ['\\', 'x', hex (b / 16), hex (b % 16)]

/-- `repr` of a bytes object, `b`-prefixed and single-quoted. -/
def bytesRepr (bs : List Nat) : String :=
  String.mk (('b' :: Char.ofNat 39 :: (bs.map byteReprChar).flatten) ++ [Char.ofNat 39])

mutual
/-- Python `str()` of a decoded value, as an f-string renders it. -/
def pyStr : PBValue → String
  | .int n => toString n
  | .bytes bs => bytesRepr bs
  | .str s => s
  | .dict d => String.mk (Char.ofNat 123 :: []) ++ String.intercalate ", " (pyReprEntries d) ++ String.mk (Char.ofNat 125 :: [])
  | .list l => "[" ++ String.intercalate ", " (pyReprItems l) ++ "]"

/-- Python `repr()` of a decoded value (strings gain quotes). -/
def pyRepr : PBValue → String
  | .str s => String.mk (Char.ofNat 39 :: s.data ++ [Char.ofNat 39])
  | v => pyStr v

/-- `repr` of each dict entry, `key: value`. -/
def pyReprEntries : List (String × PBValue) → List String
  | [] => []
  | (k, v) :: t =>
    (String.mk (Char.ofNat 39 :: k.data ++ [Char.ofNat 39]) ++ ": " ++ pyRepr v) :: pyReprEntries t

/-- `repr` of each list item. -/
def pyReprItems : List PBValue → List String
  | [] => []
  | v :: t => pyRepr v :: pyReprItems t
end

/-! ## Shared constants and small helpers from `old.py` -/

/-- `MSG_TYPE_MAP` of `old.py`: the 15 known message-type ids. -/
def MSG_TYPE_MAP : List (Int × String) :=
  [(1, "文本"), (2, "图片"), (3, "文件"), (4, "语音"), (5, "视频"),
   (6, "QQ表情"), (7, "引用"), (8, "灰字提示"), (9, "红包"), (10, "卡片"),
   (11, "商城表情"), (14, "Markdown"), (21, "通话"), (27, "礼物"),
   (28, "位置共享提示")]

/-- `INTERACTIVE_EMOJI_MAP` of `old.py`. -/
def INTERACTIVE_EMOJI_MAP : List (Int × String) :=
  [(1, "戳一戳"), (2, "比心"), (3, "点赞"), (4, "心碎"), (5, "666"), (6, "放大招")]

/-- Lookup in an int-keyed table with a default (`dict.get(k, d)`). -/
def intTableGet (t : List (Int × String)) (k : Int) (d : String) : String :=
  ((t.find? (fun p => p.1 = k)).map (·.2)).getD d

/-- `get_placeholder` from `old.py` for string arguments (the default
placeholder is `"N/A"`). -/
def get_placeholder (s : String) : String :=
  if s != "" && s != "0" then s else "N/A"

/-- Left-pad a numeral with zeros. -/
def padNum (width n : Nat) : String :=
  let s := toString n
  String.mk (List.replicate (width - s.length) '0') ++ s

/-- Civil date (year, month, day) from days since the Unix epoch
(era-based calendar algorithm, proleptic Gregorian, UTC). -/
def civilFromDays (days : Nat) : Nat × Nat × Nat :=
  let z := days + 719468
  let era := z / 146097
  let doe := z % 146097
  let yoe := (doe - doe / 1460 + doe / 36524 - doe / 146096) / 365
  let y := yoe + era * 400
  let doy := doe - (365 * yoe + yoe / 4 - yoe / 100)
  let mp := (5 * doy + 2) / 153
  let d := doy - (153 * mp + 2) / 5 + 1
  let m := if mp < 10 then mp + 3 else mp - 9
  (if m ≤ 2 then y + 1 else y, m, d)

/-- `datetime.fromtimestamp(n).strftime("%Y-%m-%d %H:%M:%S")`, modelled in
UTC for a non-negative epoch second count. -/
def strftimeEpoch (secs : Nat) : String :=
  let (y, m, d) := civilFromDays (secs / 86400)
  let sod := secs % 86400
  padNum 4 y ++ "-" ++ padNum 2 m ++ "-" ++ padNum 2 d ++ " " ++
    padNum 2 (sod / 3600) ++ ":" ++ padNum 2 (sod % 3600 / 60) ++ ":" ++ padNum 2 (sod % 60)

/-- `format_timestamp` from `old.py` on a Python int: positive timestamps
are formatted, out-of-range ones (rejected by `datetime`) fall back to
`时间戳(ts)`, anything else is `N/A`. -/
def format_timestamp_int (ts : Int) : String :=
  if ts > 0 then
    if ts < 253402300800 then strftimeEpoch ts.toNat
    else "时间戳(" ++ toString ts ++ ")"
  else "N/A"

/-- `format_timestamp` applied to a raw decoded field value: only an int
is formatted (`isinstance(ts, int)`), everything else gives `N/A`. -/
def format_timestamp_pb (v : Option PBValue) : String :=
  match v with
  | some (.int n) => format_timestamp_int n
  | _ => "N/A"

/-! ## The salvage scanners -/

/-- `re.search(r"(\[[^\]]{1,10}\])", s)`: the leftmost bracket token with
one to ten non-bracket characters inside. -/
def bracketSearch : List Char → Option (List Char)
  | [] => none
  | c :: t =>
    if c = '[' then
      let run := t.takeWhile (fun x => x ≠ ']')
      if 1 ≤ run.length ∧ run.length ≤ 10 ∧ run.length < t.length then
        some ('[' :: (run ++ [']']))
      else bracketSearch t
    else bracketSearch t

/-- Punctuation characters of the permissive printable-text pattern in
`_extract_readable_text`. -/
def printablePunct : List Char :=
  ".,!?;:".data ++ [Char.ofNat 39, '"'] ++ "()[]".data ++
    [Char.ofNat 123, Char.ofNat 125] ++ "_-+=*/\\|<>@#$%^&~".data

/-- Character class of the printable-text pattern: ASCII alphanumerics,
CJK ideographs, whitespace and common punctuation. -/
def isPrintableClass (c : Char) : Bool :=
  ('a' ≤ c && c ≤ 'z') || ('A' ≤ c && c ≤ 'Z') || ('0' ≤ c && c ≤ '9') ||
    (0x4E00 ≤ c.toNat && c.toNat ≤ 0x9FA5) || isPySpace c || printablePunct.contains c

/-- Maximal runs of characters satisfying `p` (`re.findall` on `class+`),
fueled by the input length. -/
def runsOfGo (p : Char → Bool) : Nat → List Char → List (List Char)
  | _, [] => []
  | 0, _ => []
  | fuel + 1, c :: t =>
    if p c then
      let run := t.takeWhile p
      (c :: run) :: runsOfGo p fuel (t.drop run.length)
    else runsOfGo p fuel t

/-- All maximal runs matching `p`. -/
def runsOf (p : Char → Bool) (l : List Char) : List (List Char) :=
  runsOfGo p l.length l

/-- `max(fragments, key=len)`: the first fragment of maximal length. -/
def maxByLen : List (List Char) → Option (List Char)
  | [] => none
  | h :: t => some (t.foldl (fun acc x => if x.length > acc.length then x else acc) h)

/-- Embedding of `_extract_readable_text` from `old.py`: permissive decode
of the raw bytes, then the longest printable run, stripped. -/
def extract_readable_text (data : List Nat) : Option String :=
  if data.isEmpty then none
  else
    match maxByLen (runsOf isPrintableClass (utf8DecodeReplace data).data) with
    | some m => some (String.mk (pyStrip m))
    | none => none

/-- One capture attempt after a matched literal: the run up to the next
double quote, provided the closing quote exists (and, for `[^"]+`, the run
is non-empty). Returns the capture and the text after the closing quote. -/
def captureAt (requireNonEmpty : Bool) (l : List Char) : Option (List Char × List Char) :=
  let run := l.takeWhile (fun x => x ≠ '"')
  if run.length < l.length ∧ (¬ requireNonEmpty ∨ run ≠ []) then
    some (run, l.drop (run.length + 1))
  else none

/-- `re.findall` for the gray-tip patterns `<qq uin="([^"]+)"` and
`<nor txt="([^"]*)"`: scan left to right, resume after each match. -/
def findAllGo (lit : List Char) (requireNonEmpty : Bool) : Nat → List Char → List (List Char)
  | _, [] => []
  | 0, _ => []
  | fuel + 1, l =>
    match l with
    | [] => []
    | _ :: t =>
      if lit.isPrefixOf l then
        match captureAt requireNonEmpty (l.drop lit.length) with
        | some (cap, rest) => cap :: findAllGo lit requireNonEmpty fuel rest
        | none => findAllGo lit requireNonEmpty fuel t
      else findAllGo lit requireNonEmpty fuel t

/-- All captures of the pattern `lit("([^"]+)"` or `lit("([^"]*)")`. -/
def findAllCaptures (lit : String) (requireNonEmpty : Bool) (s : String) : List String :=
  (findAllGo lit.data requireNonEmpty s.data.length s.data).map String.mk

/-! ## JSON values (for Ark card messages) -/

inductive JValue where
  | null
  | bool (b : Bool)
  | num (n : Int)
  | str (s : String)
  | arr (items : List JValue)
  | obj (entries : List (String × JValue))

/-- `d.get(k)` on a JSON object. -/
def jGet (d : List (String × JValue)) (k : String) : Option JValue :=
  (d.find? (fun p => p.1 = k)).map (·.2)

/-- Python truthiness of a JSON value. -/
def jTruthy : JValue → Bool
  | .null => false
  | .bool b => b
  | .num n => n != 0
  | .str s => s != ""
  | .arr l => !l.isEmpty
  | .obj d => !d.isEmpty

mutual
/-- Python `str()` of a JSON-decoded value. -/
def jStr : JValue → String
  | .null => "None"
  | .bool true => "True"
  | .bool false => "False"
  | .num n => toString n
  | .str s => s
  | .arr l => "[" ++ String.intercalate ", " (jReprItems l) ++ "]"
  | .obj d => String.mk (Char.ofNat 123 :: []) ++ String.intercalate ", " (jReprEntries d) ++ String.mk (Char.ofNat 125 :: [])

/-- Python `repr()` of a JSON-decoded value. -/
def jRepr : JValue → String
  | .str s => String.mk (Char.ofNat 39 :: s.data ++ [Char.ofNat 39])
  | v => jStr v

/-- `repr` of each object entry. -/
def jReprEntries : List (String × JValue) → List String
  | [] => []
  | (k, v) :: t =>
    (String.mk (Char.ofNat 39 :: k.data ++ [Char.ofNat 39]) ++ ": " ++ jRepr v) :: jReprEntries t

/-- `repr` of each array item. -/
def jReprItems : List JValue → List String
  | [] => []
  | v :: t => jRepr v :: jReprItems t
end

/-- `get_placeholder(value, ph)` applied to a JSON field and rendered by an
f-string: the value's `str()` when the value is truthy and not `"0"`,
otherwise the placeholder. -/
def jGetPlaceholder (v : Option JValue) (ph : String) : String :=
  match v with
  | some j => if jTruthy j && jStr j != "0" then jStr j else ph
  | none => ph

/-- `_sanitize_newlines` on a JSON field: a non-string is stringified
verbatim (the Python helper only replaces newlines in `str` input). -/
def jSanitize : JValue → String
  | .str s => sanitize_newlines s
  | v => jStr v

/-- `data.get("app") == "..."` and similar string comparisons. -/
def jEqStr (v : Option JValue) (s : String) : Bool :=
  match v with
  | some (.str x) => x = s
  | _ => false

/-- Infix test on character lists. -/
def listInfix (needle : List Char) : List Char → Bool
  | [] => needle.isEmpty
  | c :: t => needle.isPrefixOf (c :: t) || listInfix needle t

/-- Substring test (`needle in haystack` on Python strings). -/
def strContains (haystack needle : String) : Bool :=
  listInfix needle.data haystack.data

/-! ## Rendered output units -/

/-- A Fragment: either a plain string or the structured interactive-tip
dictionary produced for poke-style gray tips. -/
inductive Fragment where
  | str (s : String)
  | interactiveTip (actor verb target suffix : String)
deriving DecidableEq

/-- Python truthiness of a fragment (`if part:`): the tip dictionary is a
non-empty dict, so always truthy; a string is truthy when non-empty. -/
def fragTruthy : Fragment → Bool
  | .str s => s != ""
  | .interactiveTip _ _ _ _ => true

/-! ## The engine's injected capabilities -/

/-- The external collaborators `decode_message_content` consumes: the
schema-less protobuf decoder (`none` models a raised exception), the JSON
parser of the standard library (`none` models `json.loads` raising), and
the display-name resolver (`profile_mgr.get_display_name` with the
run-constant `name_style`/`name_format` arguments curried away). -/
structure Ctx where
  decodeMessage : List Nat → Option (List (String × PBValue))
  parseJson : String → Option JValue
  getDisplayName : String → String
  myUid : String

/-- The recognized export-configuration toggles (a missing key reads as
Python `None`, i.e. `false`). -/
structure ExportConfig where
  show_recall : Bool := false
  show_recall_suffix : Bool := false
  show_poke : Bool := false
  show_voice_to_text : Bool := false
  show_media_info : Bool := false

/-- `segment.get(K) == n` for an int literal `n`. -/
def pbEqInt (v : Option PBValue) (n : Int) : Bool :=
  match v with
  | some (.int m) => m = n
  | _ => false

/-- Truthiness of an optional field (`if width and height:` style tests);
a missing field is `None`, hence falsy. -/
def pyTruthyOpt : Option PBValue → Bool
  | some v => pyTruthy v
  | none => false

/-- `v > 0` on a decoded field: only an int compares, anything else raises
`TypeError`. -/
def pbGtZero : PBValue → Except Unit Bool
  | .int n => .ok (n > 0)
  | _ => .error ()

/-! ## Segment interpreters from `old.py` -/

/-- Embedding of `decode_ark_message`: parse the embedded JSON payload and
dispatch on the application id; any exception inside the body yields the
fixed unparseable-card marker. -/
def decode_ark_message (ctx : Ctx) (seg : List (String × PBValue)) : Option String :=
  let body : Except Unit (Option String) :=
    match pbGet seg "47901" with
    | none => .ok none
    | some js =>
      if ¬ pyTruthy js then .ok none
      else do
        let s : String ←
          match js with
          | .bytes bs => .ok (utf8DecodeIgnore bs)
          | .str t => .ok t
          | _ => .error ()
        let data ←
          match ctx.parseJson s with
          | some d => .ok d
          | none => .error ()
        let dObj ←
          match data with
          | .obj o => .ok o
          | _ => .error ()
        let app := jGet dObj "app"
        let prompt := (jGet dObj "prompt").getD (.str "")
        if jEqStr app "com.tencent.map" ∧ jEqStr (jGet dObj "view") "LocationShare" then
          match jGet dObj "meta" with
          | none => .ok (some ("[位置] " ++ jStr prompt))
          | some (.obj mo) =>
            match jGet mo "Location.Search" with
            | none => .ok (some ("[位置] " ++ jStr prompt))
            | some (.obj lo) =>
              .ok (some ("[位置: " ++ jGetPlaceholder (jGet lo "name") "未知地点" ++
                " | 地址: " ++ jGetPlaceholder (jGet lo "address") "无详细地址" ++ "]"))
            | some _ => .error ()
          | some _ => .error ()
        else if jEqStr app "com.tencent.music.lua" ∧ jEqStr (jGet dObj "view") "music" then
          match jGet dObj "meta" with
          | none => .ok (some ("[分享] " ++ jStr prompt))
          | some (.obj mo) =>
            match jGet mo "music" with
            | none => .ok (some ("[分享] " ++ jStr prompt))
            | some (.obj mu) =>
              .ok (some ("[分享] " ++ jGetPlaceholder (jGet mu "title") "N/A" ++
                " - " ++ jGetPlaceholder (jGet mu "desc") "N/A"))
            | some _ => .error ()
          | some _ => .error ()
        else if jEqStr app "com.tencent.contact.lua" then
          match prompt with
          | .str p =>
            if strContains p "推荐联系人" then .ok (some ("[名片] " ++ sanitize_newlines p))
            else .ok none
          | _ => .error ()
        else if jEqStr app "com.tencent.miniapp_01" then
          match prompt with
          | .str p =>
            if strContains p "[QQ小程序]" then .ok (some (sanitize_newlines p))
            else .ok none
          | _ => .error ()
        else if jEqStr app "com.tencent.multimsg" then do
          let meta := (jGet dObj "meta").getD (.obj [])
          let mo ←
            match meta with
            | .obj o => .ok o
            | _ => .error ()
          let detail := (jGet mo "detail").getD (.obj [])
          let dd ←
            match detail with
            | .obj o => .ok o
            | _ => .error ()
          let source := (jGet dd "source").getD (.str "未知")
          let summary := (jGet dd "summary").getD (.str "查看转发")
          .ok (some ("[聊天记录] " ++ jSanitize source ++ ": " ++ jSanitize summary))
        else
          .ok none
  match body with
  | .ok r => r
  | .error () => some "[卡片-解析失败]"

/-- Interactive-emoji rendering at message type 6 (shared tail of the
branch): `INTERACTIVE_EMOJI_MAP.get(action_id, "未知互动")`, where an
unhashable id raises. -/
def interactiveEmojiText (actionId : Option PBValue) : Except Unit String :=
  match actionId with
  | some (.list _) => .error ()
  | some (.dict _) => .error ()
  | some (.int n) => .ok (intTableGet INTERACTIVE_EMOJI_MAP n "未知互动")
  | _ => .ok "未知互动"

/-- Embedding of `_parse_single_segment` from `old.py`: the base
interpreter used for quote-embedded original messages and for the
dispatch fallthrough; an `Except.error` models an exception escaping to
the caller. -/
def parse_single_segment (cfg : ExportConfig) (v : PBValue) : Except Unit String :=
  match v with
  | .dict seg =>
    let msg_type := pbGet seg "45002"
    if pbEqInt msg_type 6 then
      let is_interactive := pbEqInt (pbGet seg "45003") 5
      let action_id := (pbGet seg "47611") <|> (pbGet seg "47601")
      if is_interactive then do
        let t ← interactiveEmojiText action_id
        .ok ("[互动表情: " ++ t ++ "]")
      else do
        let mem ← pyIntKeyMem action_id (INTERACTIVE_EMOJI_MAP.map (·.1))
        if mem then do
          let t ← interactiveEmojiText action_id
          .ok ("[互动表情: " ++ t ++ "]")
        else do
          let desc ← pbDecodeIgnore (pbGetD seg "47602" (.bytes []))
          if desc != "" then .ok ("[QQ表情: " ++ String.mk (desc.data.dropWhile (fun c => c = '/')) ++ "]")
          else .ok "[QQ表情]"
    else if pbEqInt msg_type 2 then
      let subtype := pbGet seg "45003"
      if pbEqInt subtype 7 then
        match pbGet seg "45815" with
        | none => .ok "[动画表情]"
        | some dl =>
          if ¬ pyTruthy dl then .ok "[动画表情]"
          else
            match dl with
            | .list (h :: _) =>
              match h with
              | .bytes bs => .ok (utf8DecodeIgnore bs)
              | _ => .error ()
            | _ => .error ()
      else if pbEqInt subtype 1 ∨ pbEqInt subtype 2 then
        match pbGet seg "45824" with
        | some av =>
          if pyTruthy av then
            match av with
            | .bytes bs => .ok ("[超级QQ秀: " ++ utf8DecodeIgnore bs ++ "]")
            | _ => .error ()
          else .ok "[动画表情]"
        | none => .ok "[动画表情]"
      else
        let tag := if pbEqInt (pbGet seg "45829") 1 then "[闪照" else "[图片"
        if cfg.show_media_info then
          match pbGet seg "45411", pbGet seg "45412" with
          | some w, some h =>
            if pyTruthy w ∧ pyTruthy h then .ok (tag ++ " " ++ pyStr w ++ "x" ++ pyStr h ++ "]")
            else .ok (tag ++ "]")
          | _, _ => .ok (tag ++ "]")
        else .ok (tag ++ "]")
    else if pbEqInt msg_type 3 then do
      let filename ← pbDecodeIgnore (pbGetD seg "45402" (.bytes []))
      if filename != "" then .ok ("[文件: " ++ filename ++ "]") else .ok "[文件]"
    else if pbEqInt msg_type 5 then
      if cfg.show_media_info then do
        let w := pbGetD seg "45413" (.int 0)
        let h := pbGetD seg "45414" (.int 0)
        let dur := pbGetD seg "45410" (.int 0)
        let wPos ← pbGtZero w
        let dims ←
          if wPos then do
            let hPos ← pbGtZero h
            if hPos then
              match w, h with
              | .int wn, .int hn => .ok [toString wn ++ "x" ++ toString hn]
              | _, _ => .error ()
            else .ok []
          else .ok ([] : List String)
        let dPos ← pbGtZero dur
        let durs ←
          if dPos then
            match dur with
            | .int dn => .ok [padNum 2 (dn / 60).toNat ++ ":" ++ padNum 2 (dn % 60).toNat]
            | _ => .error ()
          else .ok ([] : List String)
        let parts := dims ++ durs
        if parts != [] then .ok ("[视频 " ++ String.intercalate " " parts ++ "]")
        else .ok "[视频]"
      else .ok "[视频]"
    else if pbEqInt msg_type 4 then
      match pbGet seg "45005" with
      | some (.int n) =>
        if n > 0 then .ok ("[语音] " ++ toString n ++ "\"") else .ok "[语音]"
      | _ => .ok "[语音]"
    else if pbEqInt msg_type 9 then do
      let title ←
        match pbGetD seg "48403" (.dict []) with
        | .dict d2 => pbDecodeIgnore (pbGetD d2 "48443" (.bytes []))
        | _ => .error ()
      let rp_type := pbGet seg "48412"
      if pbEqInt rp_type 2 then .ok ("[普通红包] " ++ title)
      else if pbEqInt rp_type 6 then .ok ("[口令红包] " ++ title)
      else if pbEqInt rp_type 15 then .ok ("[语音红包] " ++ title)
      else .ok ("[红包] " ++ title)
    else if pbEqInt msg_type 11 ∧ (pbGet seg "80900").isSome then do
      let text ←
        match pbGet seg "80900" with
        | some (.bytes bs) => .ok (utf8DecodeIgnore bs)
        | some _ => .error ()
        | none => .error ()
      .ok (sanitize_newlines text)
    else if pbEqInt msg_type 27 then do
      let text ← pbDecodeIgnore (pbGetD seg "52138" (.bytes []))
      if text != "" then .ok (sanitize_newlines text) else .ok "[礼物]"
    else if pbEqInt msg_type 28 then do
      let text ← pbDecodeIgnore (pbGetD seg "52152" (.bytes []))
      if text != "" then .ok ("[" ++ sanitize_newlines text ++ "]") else .ok "[位置共享]"
    else if (pbGet seg "45101").isSome then do
      let text ← pbDecodeIgnore (pbGetD seg "45101" (.bytes []))
      .ok (sanitize_newlines text)
    else
      match msg_type with
      | some (.list _) => .error ()
      | some (.dict _) => .error ()
      | some (.int n) => .ok ("[" ++ intTableGet MSG_TYPE_MAP n "消息" ++ "]")
      | _ => .ok "[消息]"
  | _ => .ok ""

/-- Embedding of `_decode_interactive_gray_tip`: regex-extract two
participant ids and up to two text slots from the interactive-notice XML;
any exception in the body yields `None`. -/
def decode_interactive_gray_tip (ctx : Ctx) (seg : List (String × PBValue)) : Option Fragment :=
  let body : Except Unit (Option Fragment) := do
    let xml ← pbDecodeIgnore (pbGetD seg "48214" (.bytes []))
    let uids := findAllCaptures "<qq uin=\"" true xml
    let texts := findAllCaptures "<nor txt=\"" false xml
    match uids, texts with
    | u0 :: u1 :: _, t0 :: trest =>
      let actor := ctx.getDisplayName u0
      let target := ctx.getDisplayName u1
      let verb := if t0 != "" then sanitize_newlines t0 else "戳了戳"
      let suffix := match trest with | t1 :: _ => sanitize_newlines t1 | [] => ""
      .ok (some (.interactiveTip actor verb target suffix))
    | _, _ => .ok none
  match body with
  | .ok r => r
  | .error () => none

/-- The recaller uid string of a recall notice: bytes are decoded
permissively, a string passes through, anything else reads as `""`. -/
def recallerUidStr (seg : List (String × PBValue)) : String :=
  match pbGet seg "47703" with
  | some (.bytes bs) => utf8DecodeIgnore bs
  | some (.str s) => s
  | _ => ""

/-- The recall notice's displayed name: uid-based resolution, falling back
to the embedded literal name (field 47705) exactly when resolution
returned the uid unchanged and the literal name is a non-empty
bytes/str value. -/
def recallDisplayName (ctx : Ctx) (seg : List (String × PBValue)) : String :=
  let recaller_uid := recallerUidStr seg
  let dn := ctx.getDisplayName recaller_uid
  if dn = recaller_uid then
    match pbGet seg "47705" with
    | some (.bytes bs) =>
      if utf8DecodeIgnore bs != "" then utf8DecodeIgnore bs else recaller_uid
    | some (.str s) => if s != "" then s else recaller_uid
    | _ => dn
  else dn

/-- The optional recall suffix: empty when the suffix toggle is off,
otherwise the sanitized suffix field (47713). -/
def recallSuffix (cfg : ExportConfig) (seg : List (String × PBValue)) : String :=
  if cfg.show_recall_suffix then
    sanitize_newlines
      (match pbGet seg "47713" with
       | some (.bytes bs) => utf8DecodeIgnore bs
       | some (.str s) => s
       | _ => "")
  else ""

/-- The rendered recall-notice string. -/
def recallMessage (ctx : Ctx) (cfg : ExportConfig) (seg : List (String × PBValue)) : String :=
  "[" ++ recallDisplayName ctx seg ++ " 撤回了一条消息" ++
    (if recallSuffix cfg seg != "" then " " ++ recallSuffix cfg seg else "") ++ "]"

/-- Embedding of `decode_gray_tip`: an interactive notice is returned only
when the poke toggle is on; a recall notice (detected by the recaller-uid
field) is rendered only when the recall toggle is on, resolving the
recaller's display name by uid and falling back to the embedded literal
name exactly when resolution returns the uid unchanged; every other
gray-tip shape yields nothing. -/
def decode_gray_tip (ctx : Ctx) (cfg : ExportConfig) (seg : List (String × PBValue)) : Option Fragment :=
  match decode_interactive_gray_tip ctx seg with
  | some tip => if cfg.show_poke then some tip else none
  | none =>
    if (pbGet seg "47703").isSome then
      if ¬ cfg.show_recall then none
      else some (.str (recallMessage ctx cfg seg))
    else none

/-- `x if isinstance(x, list) else [x]`: the container field and the
embedded original-message field may hold a bare value instead of a
one-element list. -/
def containerSegments : PBValue → List PBValue
  | .list l => l
  | v => [v]

/-- Interpret one segment of the message container (the body of the
per-segment loop in `decode_message_content`): `none` means the loop
appended nothing for this segment; `Except.error` models an exception
escaping to the salvage handler. -/
def decodeOneSegment (ctx : Ctx) (cfg : ExportConfig) (is_timeline : Bool)
    (contentCache salvageCache : List (Int × String)) (s : PBValue) :
    Except Unit (Option Fragment) :=
  match s with
  | .dict seg => do
    let mt := pbGet seg "45002"
    let known ← pyIntKeyMem mt (MSG_TYPE_MAP.map (·.1))
    if ¬ known then .ok none
    else if pbEqInt mt 1 then do
      let text ← pbDecodeIgnore (pbGetD seg "45101" (.bytes []))
      .ok (some (.str (sanitize_newlines text)))
    else if pbEqInt mt 7 then do
      let ts := pbGet seg "47404"
      let fromContent ← cacheGetPB contentCache ts
      let origin_content ←
        match fromContent with
        | some c => .ok c
        | none => do
          let fromSalvage ← cacheGetPB salvageCache ts
          match fromSalvage with
          | some sv => .ok (sanitize_newlines sv)
          | none => do
            let raw ← pbDecodeIgnore (pbGetD seg "47413" (.bytes []))
            let oc := sanitize_newlines raw
            if oc != "" then .ok oc
            else
              match pbGet seg "47423" with
              | none => .ok oc
              | some ov =>
                if pyTruthy ov then do
                  let objs := containerSegments ov
                  let parts ← objs.mapM (parse_single_segment cfg)
                  .ok (String.intercalate " " (parts.filter (fun x => x != "")))
                else .ok oc
      let s_uid ← pbDecodeStrict (pbGetD seg "40020" (.bytes []))
      let sender := ctx.getDisplayName (get_placeholder s_uid)
      if is_timeline then do
        let r_uid ← pbDecodeStrict (pbGetD seg "40021" (.bytes []))
        let receiver := ctx.getDisplayName (get_placeholder r_uid)
        .ok (some (.str ("[引用->" ++ format_timestamp_pb ts ++ " " ++ sender ++ " -> " ++
          receiver ++ ": " ++ origin_content ++ "]")))
      else
        .ok (some (.str ("[引用->" ++ format_timestamp_pb ts ++ " " ++ sender ++ ": " ++
          origin_content ++ "]")))
    else if pbEqInt mt 21 then do
      let status ← pbDecodeIgnore (pbGetD seg "48153" (.bytes []))
      let call_type :=
        if pbEqInt (pbGet seg "48154") 1 then "语音通话"
        else if pbEqInt (pbGet seg "48154") 2 then "视频通话"
        else "通话"
      .ok (some (.str ("[" ++ call_type ++ "] " ++ status)))
    else if pbEqInt mt 4 then do
      let text_raw ← pbDecodeIgnore (pbGetD seg "45923" (.bytes []))
      if text_raw != "" ∧ cfg.show_voice_to_text then
        .ok (some (.str ("[语音] 转文字：" ++ sanitize_newlines text_raw)))
      else .ok (some (.str "[语音]"))
    else if pbEqInt mt 8 then
      .ok (decode_gray_tip ctx cfg seg)
    else if pbEqInt mt 10 then
      .ok ((decode_ark_message ctx seg).map .str)
    else do
      let t ← parse_single_segment cfg (.dict seg)
      .ok (some (.str t))
  | _ => .ok none

/-- The per-segment loop of `decode_message_content`: truthy fragments are
appended in order; an exception anywhere discards the partial list. -/
def decodeSegments (ctx : Ctx) (cfg : ExportConfig) (is_timeline : Bool)
    (contentCache salvageCache : List (Int × String)) :
    List PBValue → Except Unit (List Fragment)
  | [] => .ok []
  | s :: rest => do
    let p? ← decodeOneSegment ctx cfg is_timeline contentCache salvageCache s
    let tail ← decodeSegments ctx cfg is_timeline contentCache salvageCache rest
    match p? with
    | some p => if fragTruthy p then .ok (p :: tail) else .ok tail
    | none => .ok tail

/-- Truthiness of `salvaged` (`None` or a possibly empty string). -/
def optStrTruthy : Option String → Bool
  | some s => s != ""
  | none => false

/-- The `except` branch of `decode_message_content` (the Salvage Chain):
bracket-token search, then longest printable run, then the base64
placeholder; the chosen text is stored into the Salvage Cache under the
message's timestamp. -/
def salvage_chain (content : List Nat) (timestamp : Int)
    (salvageCache : List (Int × String)) :
    Option (List Fragment) × List (Int × String) :=
  let salvaged1 : Option String := (bracketSearch (utf8DecodeIgnore content).data).map String.mk
  let salvaged : Option String :=
    if optStrTruthy salvaged1 then salvaged1 else extract_readable_text content
  if optStrTruthy salvaged then
    let s := salvaged.getD ""
    (some [.str (sanitize_newlines s)], cacheInsert salvageCache timestamp s)
  else
    let b64 := "[解码失败-BASE64] " ++ b64encode content
    (some [.str b64], cacheInsert salvageCache timestamp b64)

/-- Embedding of `decode_message_content` from `old.py`. Returns the
fragment list (or `none` for "render nothing") plus the Salvage Cache,
which the except-branch updates. The Quote-Resolution Cache
(`MESSAGE_CONTENT_CACHE`) and Salvage Cache (`SALVAGE_CACHE`) globals are
passed and returned explicitly. -/
def decode_message_content (ctx : Ctx) (content : List Nat) (timestamp : Int)
    (cfg : ExportConfig) (is_timeline : Bool)
    (contentCache salvageCache : List (Int × String)) :
    Option (List Fragment) × List (Int × String) :=
  if content.isEmpty then (none, salvageCache)
  else
    let tryBody : Except Unit (Option (List Fragment)) :=
      match ctx.decodeMessage content with
      | none => .error ()
      | some decoded =>
        match pbGet decoded "40800" with
        | none => .ok (some [.str "[结构错误: 未找到消息容器]"])
        | some segData =>
          let segs := containerSegments segData
          do
            let parts ← decodeSegments ctx cfg is_timeline contentCache salvageCache segs
            .ok (if parts.isEmpty then none else some parts)
    match tryBody with
    | .ok r => (r, salvageCache)
    | .error () => salvage_chain content timestamp salvageCache

/-! ## The Field Semantics Mapper (`export_c2c.py`) -/

namespace proto_maps

/-- Modelled from the spec: `proto_maps.py`, imported by `export_c2c.py`
for the static id-to-name table, is not among the repository's source
files. The spec says it renames recognized numeric field identifiers to
semantic names; the `case "MSG_TYPE"` dispatch in `map_protobuf_keys`
shows the message-type field id (45002 throughout `old.py`) maps to the
name `MSG_TYPE`. A small representative table is used. -/
def PROTO_FIELD_MAP : List (String × String) :=
  [("45002", "MSG_TYPE"), ("45101", "TEXT_CONTENT"), ("40800", "MSG_CONTAINER"),
   ("40050", "MSG_TIME")]

/-- Modelled from the spec: the enumerated message-type labels of
`proto_maps.py` (missing from the sources); the labels of `old.py`'s
`MSG_TYPE_MAP` are used. -/
def MSG_TYPE_MAP : List (Int × String) :=
  [(1, "文本"), (2, "图片"), (3, "文件"), (4, "语音"), (5, "视频"),
   (6, "QQ表情"), (7, "引用"), (8, "灰字提示"), (9, "红包"), (10, "卡片"),
   (11, "商城表情"), (14, "Markdown"), (21, "通话"), (27, "礼物"),
   (28, "位置共享提示")]

/-- Modelled from the spec: the fixed ignore-list of `proto_maps.py`
(missing from the sources): identifiers known to be decoder noise. -/
def IGNORE_IDS : List String := ["40093", "40094"]

end proto_maps

/-- `MSG_TYPE_MAP.get(processed_value, processed_value)`: an integer value
is translated to its label when the enum table knows it. -/
def enumTranslate (tm : List (Int × String)) : PBValue → PBValue
  | .int n => (((tm.find? (fun p => p.1 = n)).map (fun p => PBValue.str p.2)).getD (.int n))
  | v => v

/-- The per-key transform of one mapping level of `map_protobuf_keys`
applied to an already-mapped value: rename via the id-to-name table, then
translate the enumerated message-type value. -/
def mapKeyValue (rm : List (String × String)) (tm : List (Int × String))
    (k : String) (pv : PBValue) : String × PBValue :=
  let rk := (((rm.find? (fun p => p.1 = k)).map (·.2)).getD k)
  (rk, if rk = "MSG_TYPE" then enumTranslate tm pv else pv)

mutual
/-- Embedding of `map_protobuf_keys` from `export_c2c.py`, parameterized
by the three static tables of `proto_maps.py`: recursively rename numeric
keys to readable names, drop ignore-listed and non-5-character keys, and
translate the message-type enum. -/
def map_protobuf_keys (rm : List (String × String)) (tm : List (Int × String))
    (ig : List String) : PBValue → PBValue
  | .list l => .list (mapPBItems rm tm ig l)
  | .dict d => .dict (mapPBDict rm tm ig d [])
  | v => v

/-- The list comprehension branch of `map_protobuf_keys`. -/
def mapPBItems (rm : List (String × String)) (tm : List (Int × String))
    (ig : List String) : List PBValue → List PBValue
  | [] => []
  | v :: t => map_protobuf_keys rm tm ig v :: mapPBItems rm tm ig t

/-- The `new_data` loop of `map_protobuf_keys`: iterate over the input
entries, skipping filtered keys and assigning into the fresh dict. -/
def mapPBDict (rm : List (String × String)) (tm : List (Int × String))
    (ig : List String) : List (String × PBValue) → List (String × PBValue) →
    List (String × PBValue)
  | [], acc => acc
  | (k, v) :: rest, acc =>
    if ig.contains k || k.length != 5 then mapPBDict rm tm ig rest acc
    else
      let (rk, pv) := mapKeyValue rm tm k (map_protobuf_keys rm tm ig v)
      mapPBDict rm tm ig rest (pyInsert acc rk pv)
end

/-! ## The TXT and MD writers (`_write_txt`, `_write_md`) -/

/-- One already-fetched message row: timestamp, sender uid, peer uid and
the raw content blob. -/
structure Row where
  ts : Int
  s_uid : String
  p_uid : String
  content : List Nat

/-- `str(p) for p in parts if not isinstance(p, dict)`: the plain-string
fragments, in order. -/
def fragStrings (parts : List Fragment) : List String :=
  parts.filterMap (fun f =>
    match f with
    | .str s => some s
    | .interactiveTip _ _ _ _ => none)

/-- `str(p)` on a fragment: the tip dictionary prints as a Python dict
repr in insertion order (type, actor, target, verb, suffix). -/
def fragPyStr : Fragment → String
  | .str s => s
  | .interactiveTip a v t sfx =>
    let q := String.mk [Char.ofNat 39]
    String.mk [Char.ofNat 123] ++
      q ++ "type" ++ q ++ ": " ++ q ++ "interactive_tip" ++ q ++ ", " ++
      q ++ "actor" ++ q ++ ": " ++ q ++ a ++ q ++ ", " ++
      q ++ "target" ++ q ++ ": " ++ q ++ t ++ q ++ ", " ++
      q ++ "verb" ++ q ++ ": " ++ q ++ v ++ q ++ ", " ++
      q ++ "suffix" ++ q ++ ": " ++ q ++ sfx ++ q ++
      String.mk [Char.ofNat 125]

/-- `parts[0]` is a string starting with the reply marker. -/
def isReplyFirst (parts : List Fragment) : Bool :=
  match parts with
  | .str s :: _ => "[引用->".data.isPrefixOf s.data
  | _ => false

/-- The reply marker `[引用->` as characters. -/
def replyMarker : List Char := "[引用->".data

/-- Decimal digit test. -/
def isDigitCh (c : Char) : Bool := '0' ≤ c && c ≤ '9'

/-- The 19-character `\d{4}-\d{2}-\d{2} \d{2}:\d{2}:\d{2}` shape. -/
def tsShape19 : List Char → Bool
  | c0 :: c1 :: c2 :: c3 :: c4 :: c5 :: c6 :: c7 :: c8 :: c9 :: c10 ::
      c11 :: c12 :: c13 :: c14 :: c15 :: c16 :: c17 :: c18 :: _ =>
    isDigitCh c0 && isDigitCh c1 && isDigitCh c2 && isDigitCh c3 && c4 = '-' &&
    isDigitCh c5 && isDigitCh c6 && c7 = '-' && isDigitCh c8 && isDigitCh c9 &&
    c10 = ' ' && isDigitCh c11 && isDigitCh c12 && c13 = ':' &&
    isDigitCh c14 && isDigitCh c15 && c16 = ':' && isDigitCh c17 && isDigitCh c18
  | _ => false

/-- Index of the last occurrence of a character. -/
def lastIdxOf (c : Char) (l : List Char) : Option Nat :=
  match l.reverse.findIdx? (fun x => x = c) with
  | some j => some (l.length - 1 - j)
  | none => none

/-- The TXT writer's one-shot rewrite
`re.sub(r'\[引用->(\d{4}-..-.. ..:..:..) (.*)\]', r'[引用-> [\1] \2 <-]',
text, count=1)`: leftmost match, greedy capture up to the last bracket on
the line. -/
def replySubGo : Nat → List Char → List Char
  | _, [] => []
  | 0, l => l
  | fuel + 1, l =>
    match l with
    | [] => []
    | c :: t =>
      if replyMarker.isPrefixOf l then
        let afterMarker := l.drop 5
        if tsShape19 (afterMarker.take 19) ∧ (afterMarker.drop 19).head? = some ' ' then
          let tsChars := afterMarker.take 19
          let rest := afterMarker.drop 20
          let region := rest.takeWhile (fun x => x ≠ '\n')
          match lastIdxOf ']' region with
          | some i =>
            "[引用-> [".data ++ tsChars ++ "] ".data ++ region.take i ++
              " <-]".data ++ rest.drop (i + 1)
          | none => c :: replySubGo fuel t
        else c :: replySubGo fuel t
      else c :: replySubGo fuel t

/-- String form of the TXT reply rewrite. -/
def replySub (s : String) : String :=
  String.mk (replySubGo s.data.length s.data)

/-- The MD writer's quote extraction `re.search(r'\[引用->(.*)\]', p_str)`:
the greedy capture after the leftmost reply marker, if any. -/
def quoteSearchGo : Nat → List Char → Option (List Char)
  | _, [] => none
  | 0, _ => none
  | fuel + 1, l =>
    match l with
    | [] => none
    | _ :: t =>
      if replyMarker.isPrefixOf l then
        let rest := l.drop 5
        let region := rest.takeWhile (fun x => x ≠ '\n')
        match lastIdxOf ']' region with
        | some i => some (region.take i)
        | none => quoteSearchGo fuel t
      else quoteSearchGo fuel t

/-- String form of the MD quote extraction. -/
def quoteSearch (s : String) : Option String :=
  (quoteSearchGo s.data.length s.data).map String.mk

/-- `%Y-%m-%d` of an epoch timestamp (UTC model). -/
def dateStrOfEpoch (ts : Int) : String :=
  let (y, m, d) := civilFromDays (ts.toNat / 86400)
  padNum 4 y ++ "-" ++ padNum 2 m ++ "-" ++ padNum 2 d

/-- `%H:%M:%S` of an epoch timestamp (UTC model). -/
def timeStrOfEpoch (ts : Int) : String :=
  let sod := ts.toNat % 86400
  padNum 2 (sod / 3600) ++ ":" ++ padNum 2 (sod % 3600 / 60) ++ ":" ++ padNum 2 (sod % 60)

/-- Embedding of the `_write_txt` row loop: produces the written lines and
the message count, threading the Quote-Resolution Cache
(`MESSAGE_CONTENT_CACHE`) and the Salvage Cache. -/
def write_txt_loop (ctx : Ctx) (cfg : ExportConfig) (is_timeline : Bool) :
    List Row → List (Int × String) → List (Int × String) →
    List String × Nat × List (Int × String) × List (Int × String)
  | [], mc, sc => ([], 0, mc, sc)
  | r :: rows, mc, sc =>
    match decode_message_content ctx r.content r.ts cfg is_timeline mc sc with
    | (none, sc2) => write_txt_loop ctx cfg is_timeline rows mc sc2
    | (some parts, sc2) =>
      if parts.isEmpty then write_txt_loop ctx cfg is_timeline rows mc sc2
      else
        let is_reply := isReplyFirst parts
        let text0 := String.intercalate " " (fragStrings parts)
        let mc2 := if ¬ is_reply then cacheInsert mc r.ts text0 else mc
        let text := if ¬ is_reply then text0 else replySub text0
        let time := format_timestamp_int r.ts
        let line :=
          match parts with
          | .interactiveTip a v t sfx :: _ =>
            "[" ++ time ++ "] [系统提示]: " ++ a ++ " " ++ v ++ " " ++ t ++ sfx ++ "\n"
          | _ =>
            let sender0 := ctx.getDisplayName (get_placeholder r.s_uid)
            let sender := if sender0 = "N/A" then "[系统提示]" else sender0
            if is_timeline then
              let p_uid :=
                if get_placeholder r.s_uid = get_placeholder r.p_uid then ctx.myUid else r.p_uid
              let receiver := ctx.getDisplayName (get_placeholder p_uid)
              "[" ++ time ++ "] " ++ sender ++ " -> " ++ receiver ++ ": " ++ text ++ "\n"
            else
              "[" ++ time ++ "] " ++ sender ++ ": " ++ text ++ "\n"
        let rest := write_txt_loop ctx cfg is_timeline rows mc2 sc2
        (line :: rest.1, rest.2.1 + 1, rest.2.2.1, rest.2.2.2)

/-- The MD writer's formatting state: last date header, last sender
header, and whether the last element written was a quote block. -/
structure MdState where
  last_date : Option String := none
  last_sender_key : Option String := none
  last_element_was_quote : Bool := false

/-- Embedding of the `_write_md` row loop: produces the written chunks and
the message count, threading the two caches and the formatting state. -/
def write_md_loop (ctx : Ctx) (cfg : ExportConfig) (is_timeline : Bool) :
    List Row → List (Int × String) → List (Int × String) → MdState →
    List String × Nat × List (Int × String) × List (Int × String)
  | [], mc, sc, _ => ([], 0, mc, sc)
  | r :: rows, mc, sc, st =>
    match decode_message_content ctx r.content r.ts cfg is_timeline mc sc with
    | (none, sc2) => write_md_loop ctx cfg is_timeline rows mc sc2 st
    | (some parts, sc2) =>
      if parts.isEmpty then write_md_loop ctx cfg is_timeline rows mc sc2 st
      else
        let current_date := dateStrOfEpoch r.ts
        let current_time := timeStrOfEpoch r.ts
        let sender_display := ctx.getDisplayName (get_placeholder r.s_uid)
        let sender_key :=
          if sender_display = "N/A" then "[系统提示]"
          else if is_timeline then
            let p_uid :=
              if get_placeholder r.s_uid = get_placeholder r.p_uid then ctx.myUid else r.p_uid
            sender_display ++ " -> " ++ ctx.getDisplayName (get_placeholder p_uid)
          else sender_display
        let dateChanged := st.last_date ≠ some current_date
        let dateLines :=
          if dateChanged then
            (if st.last_date ≠ none ∧ ¬ st.last_element_was_quote then ["\n"] else []) ++
              ["# " ++ current_date ++ "\n"]
          else []
        let st1 : MdState :=
          if dateChanged then
            { last_date := some current_date, last_sender_key := none,
              last_element_was_quote := false }
          else st
        let senderChanged := st1.last_sender_key ≠ some sender_key
        let senderLines :=
          if senderChanged then
            (if ¬ st1.last_element_was_quote then ["\n"] else []) ++
              ["### " ++ sender_key ++ "\n"]
          else []
        let st2 : MdState :=
          if senderChanged then
            { st1 with last_sender_key := some sender_key, last_element_was_quote := false }
          else st1
        let is_reply := isReplyFirst parts
        let tipFirst :=
          match parts with
          | .interactiveTip _ _ _ _ :: _ => true
          | _ => false
        let (main_text_parts, quote_content) :=
          if !is_reply && tipFirst then
            match parts with
            | .interactiveTip a v t sfx :: _ => ([a ++ " " ++ v ++ " " ++ t ++ sfx], "")
            | _ => ([], "")
          else
            parts.foldl (fun (acc : List String × String) p =>
              let p_str := fragPyStr p
              match quoteSearch p_str with
              | some q => (acc.1, q)
              | none => (acc.1 ++ [p_str], acc.2)) ([], "")
        let main_text0 := String.intercalate " " main_text_parts
        let mc2 := if ¬ is_reply then cacheInsert mc r.ts main_text0 else mc
        let main_text :=
          if sender_key = "[系统提示]" ∧ "[".data.isPrefixOf main_text0.data ∧ "]".data.isSuffixOf main_text0.data then
            String.mk (main_text0.data.drop 1 |>.dropLast)
          else main_text0
        let msgLines :=
          ["* " ++ current_time ++ " " ++ main_text ++ "\n"] ++
            (if quote_content ≠ "" then ["  > " ++ quote_content ++ "\n\n"] else [])
        let st3 : MdState := { st2 with last_element_was_quote := quote_content ≠ "" }
        let rest := write_md_loop ctx cfg is_timeline rows mc2 sc2 st3
        (dateLines ++ senderLines ++ msgLines ++ rest.1, rest.2.1 + 1, rest.2.2.1, rest.2.2.2)

/-! ## Basic lemmas -/

/-- `cacheInsert` makes the inserted binding visible. -/
theorem cacheGet_cacheInsert_self (c : List (Int × String)) (k : Int) (v : String) :
    cacheGet (cacheInsert c k v) k = some v := by
  induction c with
  | nil => simp [cacheInsert, cacheGet]
  | cons p t ih =>
    obtain ⟨k0, v0⟩ := p
    by_cases h : k0 = k
    · subst h
      simp [cacheInsert, cacheGet]
    · simp [cacheInsert, cacheGet, h, Ne.symm h] at ih ⊢
      exact ih

/-- A successful bracket search returns a token that starts with `[`. -/
theorem bracketSearch_some_shape : ∀ l tok, bracketSearch l = some tok →
    ∃ t, tok = '[' :: t := by
  intro l
  induction l with
  | nil => intro tok h; simp [bracketSearch] at h
  | cons c rest ih =>
    intro tok h
    rw [bracketSearch] at h
    by_cases hc : c = '['
    · rw [if_pos hc] at h
      simp only [] at h
      split at h
      · exact ⟨_, (Option.some.inj h).symm⟩
      · exact ih tok h
    · rw [if_neg hc] at h
      exact ih tok h

/-- Sanitizing a non-empty character list gives a non-empty list. -/
theorem sanitizeChars_ne_nil (l : List Char) (h : l ≠ []) : sanitizeChars l ≠ [] := by
  cases l with
  | nil => exact absurd rfl h
  | cons c t =>
    rw [sanitizeChars.eq_def]
    split <;> simp_all [sentinelToken]

/-- Sanitizing a non-empty string gives a non-empty string. -/
theorem sanitize_newlines_ne_empty (s : String) (h : s ≠ "") :
    sanitize_newlines s ≠ "" := by
  obtain ⟨l⟩ := s
  have hl : l ≠ [] := by
    intro hh
    exact h (by simp [hh])
  have := sanitizeChars_ne_nil l hl
  simp [sanitize_newlines, String.ext_iff]
  exact this

/-- The base64 placeholder is never the empty string. -/
theorem b64_placeholder_ne_empty (content : List Nat) :
    "[解码失败-BASE64] " ++ b64encode content ≠ "" := by
  simp [String.ext_iff, b64encode]

/-- Shared description of the salvage chain: on decoder failure the result
is one non-empty fragment, selected bracket-token first, then printable
run, then base64 placeholder, and the stored value is cached under the
timestamp. -/
theorem salvage_chain_spec (ctx : Ctx) (content : List Nat) (ts : Int)
    (cfg : ExportConfig) (itl : Bool) (mc sc : List (Int × String))
    (hfail : ctx.decodeMessage content = none) (hne : content ≠ []) :
    ∃ stored frag : String,
      decode_message_content ctx content ts cfg itl mc sc =
        (some [Fragment.str frag], cacheInsert sc ts stored) ∧
      frag ≠ "" ∧
      cacheGet (cacheInsert sc ts stored) ts = some stored ∧
      ((∃ tok, bracketSearch (utf8DecodeIgnore content).data = some tok ∧
          stored = String.mk tok ∧ frag = sanitize_newlines stored) ∨
       (bracketSearch (utf8DecodeIgnore content).data = none ∧
          ∃ r, extract_readable_text content = some r ∧ r ≠ "" ∧ stored = r ∧
            frag = sanitize_newlines r) ∨
       ((bracketSearch (utf8DecodeIgnore content).data = none ∧
          (extract_readable_text content = none ∨ extract_readable_text content = some "")) ∧
          stored = "[解码失败-BASE64] " ++ b64encode content ∧ frag = stored)) := by
  have hC : content.isEmpty = false := by
    cases content with
    | nil => exact absurd rfl hne
    | cons a t => rfl
  rcases hb : bracketSearch (utf8DecodeIgnore content).data with _ | tok
  · rcases hx : extract_readable_text content with _ | r
    · refine ⟨"[解码失败-BASE64] " ++ b64encode content, _, ?_,
        b64_placeholder_ne_empty content, cacheGet_cacheInsert_self sc ts _,
        Or.inr (Or.inr ⟨⟨rfl, Or.inl rfl⟩, rfl, rfl⟩)⟩
      simp [decode_message_content, salvage_chain, hC, hfail, hb, hx, optStrTruthy]
    · by_cases hr : r = ""
      · subst hr
        refine ⟨"[解码失败-BASE64] " ++ b64encode content, _, ?_,
          b64_placeholder_ne_empty content, cacheGet_cacheInsert_self sc ts _,
          Or.inr (Or.inr ⟨⟨rfl, Or.inr rfl⟩, rfl, rfl⟩)⟩
        simp [decode_message_content, salvage_chain, hC, hfail, hb, hx, optStrTruthy]
      · refine ⟨r, sanitize_newlines r, ?_, sanitize_newlines_ne_empty r hr,
          cacheGet_cacheInsert_self sc ts _,
          Or.inr (Or.inl ⟨rfl, r, rfl, hr, rfl, rfl⟩)⟩
        simp [decode_message_content, salvage_chain, hC, hfail, hb, hx, optStrTruthy, hr]
  · obtain ⟨t, rfl⟩ := bracketSearch_some_shape _ _ hb
    have hne2 : String.mk ('[' :: t) ≠ "" := by simp [String.ext_iff]
    refine ⟨String.mk ('[' :: t), sanitize_newlines (String.mk ('[' :: t)), ?_,
      sanitize_newlines_ne_empty _ hne2, cacheGet_cacheInsert_self sc ts _,
      Or.inl ⟨'[' :: t, rfl, rfl, rfl⟩⟩
    simp [decode_message_content, salvage_chain, hC, hfail, hb, optStrTruthy, hne2]

/-- C1: for every raw blob on which the external protobuf decoder throws,
`decode_message_content` returns a one-fragment (hence non-empty, never a
propagated exception) result, trying in order the bracket-delimited token
(at most 10 characters inside the brackets), the longest contiguous
printable-text run, and the fixed base64 placeholder built from the raw
bytes; the chosen salvage result (including the base64 placeholder) is
stored into the Salvage Cache under the message's timestamp. -/
theorem C1_salvage_guarantee (ctx : Ctx) (content : List Nat) (ts : Int)
    (cfg : ExportConfig) (itl : Bool) (mc sc : List (Int × String))
    (hfail : ctx.decodeMessage content = none) (hne : content ≠ []) :
    ∃ stored frag : String,
      decode_message_content ctx content ts cfg itl mc sc =
        (some [Fragment.str frag], cacheInsert sc ts stored) ∧
      frag ≠ "" ∧
      cacheGet (cacheInsert sc ts stored) ts = some stored ∧
      ((∃ tok, bracketSearch (utf8DecodeIgnore content).data = some tok ∧
          stored = String.mk tok ∧ frag = sanitize_newlines stored) ∨
       (bracketSearch (utf8DecodeIgnore content).data = none ∧
          ∃ r, extract_readable_text content = some r ∧ r ≠ "" ∧ stored = r ∧
            frag = sanitize_newlines r) ∨
       ((bracketSearch (utf8DecodeIgnore content).data = none ∧
          (extract_readable_text content = none ∨ extract_readable_text content = some "")) ∧
          stored = "[解码失败-BASE64] " ++ b64encode content ∧ frag = stored)) :=
  salvage_chain_spec ctx content ts cfg itl mc sc hfail hne

/-- A context whose external decoder always throws. -/
def ctxFail : Ctx :=
  { decodeMessage := fun _ => none
    parseJson := fun _ => none
    getDisplayName := id
    myUid := "u_me" }

/-- Witness for C1 at the concrete undecodable blob `b"\xff"`. -/
theorem C1_salvage_guarantee_witness :
    ∃ stored frag : String,
      decode_message_content ctxFail [255] 7 {} false [] [] =
        (some [Fragment.str frag], cacheInsert [] 7 stored) ∧
      frag ≠ "" ∧
      cacheGet (cacheInsert [] 7 stored) 7 = some stored ∧
      ((∃ tok, bracketSearch (utf8DecodeIgnore [255]).data = some tok ∧
          stored = String.mk tok ∧ frag = sanitize_newlines stored) ∨
       (bracketSearch (utf8DecodeIgnore [255]).data = none ∧
          ∃ r, extract_readable_text [255] = some r ∧ r ≠ "" ∧ stored = r ∧
            frag = sanitize_newlines r) ∨
       ((bracketSearch (utf8DecodeIgnore [255]).data = none ∧
          (extract_readable_text [255] = none ∨ extract_readable_text [255] = some "")) ∧
          stored = "[解码失败-BASE64] " ++ b64encode [255] ∧ frag = stored)) :=
  C1_salvage_guarantee ctxFail [255] 7 {} false [] [] rfl (by decide)

/-- Every fragment the per-segment loop collects is truthy (only truthy
parts are appended). -/
theorem decodeSegments_truthy (ctx : Ctx) (cfg : ExportConfig) (itl : Bool)
    (mc sc : List (Int × String)) :
    ∀ segs parts, decodeSegments ctx cfg itl mc sc segs = .ok parts →
      ∀ f ∈ parts, fragTruthy f = true := by
  intro segs
  induction segs with
  | nil =>
    intro parts h f hf
    simp [decodeSegments] at h
    subst h
    simp at hf
  | cons s rest ih =>
    intro parts h f hf
    rw [decodeSegments] at h
    rcases h1 : decodeOneSegment ctx cfg itl mc sc s with e | p?
    · rw [h1] at h
      simp [Bind.bind, Except.bind] at h
    · rw [h1] at h
      rcases h2 : decodeSegments ctx cfg itl mc sc rest with e | tail
      · rw [h2] at h
        cases p? <;> simp [Bind.bind, Except.bind] at h
      · rw [h2] at h
        cases p? with
        | none =>
          simp [Bind.bind, Except.bind] at h
          subst h
          exact ih _ h2 f hf
        | some p =>
          simp [Bind.bind, Except.bind] at h
          by_cases hp : fragTruthy p = true
          · rw [if_pos hp] at h
            cases h
            rcases List.mem_cons.mp hf with hf1 | hf2
            · subst hf1; exact hp
            · exact ih _ h2 f hf2
          · rw [if_neg hp] at h
            cases h
            exact ih _ h2 f hf

/-- The Salvage Chain always returns exactly one non-empty fragment. -/
theorem salvage_chain_shape (content : List Nat) (ts : Int) (sc : List (Int × String)) :
    ∃ frag, (salvage_chain content ts sc).1 = some [Fragment.str frag] ∧ frag ≠ "" := by
  rcases hb : bracketSearch (utf8DecodeIgnore content).data with _ | tok
  · rcases hx : extract_readable_text content with _ | r
    · exact ⟨_, by simp [salvage_chain, hb, hx, optStrTruthy], b64_placeholder_ne_empty content⟩
    · by_cases hr : r = ""
      · subst hr
        exact ⟨_, by simp [salvage_chain, hb, hx, optStrTruthy], b64_placeholder_ne_empty content⟩
      · exact ⟨sanitize_newlines r, by simp [salvage_chain, hb, hx, optStrTruthy, hr],
          sanitize_newlines_ne_empty r hr⟩
  · obtain ⟨t, rfl⟩ := bracketSearch_some_shape _ _ hb
    have hne2 : String.mk ('[' :: t) ≠ "" := by simp [String.ext_iff]
    exact ⟨sanitize_newlines (String.mk ('[' :: t)),
      by simp [salvage_chain, hb, optStrTruthy, hne2], sanitize_newlines_ne_empty _ hne2⟩

/-- C9: `decode_message_content` never returns an empty list — a returned
fragment sequence is non-empty and every element is truthy; when every
segment renders to nothing the function returns `none` instead. -/
theorem C9_result_nonempty_truthy (ctx : Ctx) (content : List Nat) (ts : Int)
    (cfg : ExportConfig) (itl : Bool) (mc sc : List (Int × String)) (l : List Fragment)
    (h : (decode_message_content ctx content ts cfg itl mc sc).1 = some l) :
    l ≠ [] ∧ ∀ f ∈ l, fragTruthy f = true := by
  by_cases hC : content.isEmpty
  · rw [decode_message_content, if_pos hC] at h
    simp at h
  · have hC2 : content.isEmpty = false := by simpa using hC
    rcases hd : ctx.decodeMessage content with _ | decoded
    · have heq : decode_message_content ctx content ts cfg itl mc sc =
          salvage_chain content ts sc := by
        simp [decode_message_content, hC2, hd]
      obtain ⟨frag, h1, h2⟩ := salvage_chain_shape content ts sc
      rw [heq, h1] at h
      obtain rfl : [Fragment.str frag] = l := by exact Option.some.inj h
      exact ⟨by simp, by intro f hf; simp at hf; subst hf; simpa [fragTruthy] using h2⟩
    · rcases hcont : pbGet decoded "40800" with _ | segData
      · have heq : decode_message_content ctx content ts cfg itl mc sc =
            (some [Fragment.str "[结构错误: 未找到消息容器]"], sc) := by
          simp [decode_message_content, hC2, hd, hcont]
        rw [heq] at h
        obtain rfl : [Fragment.str "[结构错误: 未找到消息容器]"] = l := by
          exact Option.some.inj h
        exact ⟨by simp, by intro f hf; simp at hf; subst hf; decide⟩
      · rcases hsegs : decodeSegments ctx cfg itl mc sc
            (containerSegments segData) with e | parts
        · have heq : decode_message_content ctx content ts cfg itl mc sc =
              salvage_chain content ts sc := by
            simp [decode_message_content, hC2, hd, hcont, hsegs, Bind.bind, Except.bind]
          obtain ⟨frag, h1, h2⟩ := salvage_chain_shape content ts sc
          rw [heq, h1] at h
          obtain rfl : [Fragment.str frag] = l := by exact Option.some.inj h
          exact ⟨by simp, by intro f hf; simp at hf; subst hf; simpa [fragTruthy] using h2⟩
        · have heq : decode_message_content ctx content ts cfg itl mc sc =
              ((if parts.isEmpty then none else some parts), sc) := by
            simp [decode_message_content, hC2, hd, hcont, hsegs, Bind.bind, Except.bind]
          rw [heq] at h
          by_cases hp : parts.isEmpty
          · rw [if_pos hp] at h
            simp at h
          · rw [if_neg hp] at h
            obtain rfl : parts = l := by exact Option.some.inj h
            refine ⟨by simpa using hp, ?_⟩
            exact decodeSegments_truthy ctx cfg itl mc sc _ parts hsegs

/-- A context that decodes every blob to a single text segment `"hi"`. -/
def ctxText : Ctx :=
  { decodeMessage := fun _ =>
      some [("40800", PBValue.dict [("45002", PBValue.int 1), ("45101", PBValue.bytes [104, 105])])]
    parseJson := fun _ => none
    getDisplayName := id
    myUid := "u_me" }

/-- Witness for C9 at a concrete decodable text message. -/
theorem C9_result_nonempty_truthy_witness :
    ([Fragment.str "hi"] : List Fragment) ≠ [] ∧
      ∀ f ∈ ([Fragment.str "hi"] : List Fragment), fragTruthy f = true :=
  C9_result_nonempty_truthy ctxText [1] 3 {} false [] [] [Fragment.str "hi"] (by decide)

/-- Lookup with default misses every key not in the table. -/
theorem intTableGet_not_mem (t : List (Int × String)) (n : Int) (d : String)
    (h : ∀ p ∈ t, p.1 ≠ n) : intTableGet t n d = d := by
  induction t with
  | nil => simp [intTableGet]
  | cons p rest ih =>
    obtain ⟨k, v⟩ := p
    have hk : k ≠ n := h (k, v) (by simp)
    simp only [intTableGet, List.find?]
    simp [hk]
    simpa [intTableGet] using ih (fun q hq => h q (by simp [hq]))

/-- A context whose decoder yields one segment of the unknown type 99
carrying a text field. -/
def ctxUnknownType : Ctx :=
  { decodeMessage := fun _ =>
      some [("40800", PBValue.dict [("45002", PBValue.int 99), ("45101", PBValue.bytes [120])])]
    parseJson := fun _ => none
    getDisplayName := id
    myUid := "u_me" }

/-- Counterexample to C3 as stated: a message whose single segment has the
unknown type id 99 renders to `none` — no `"[99]"` (nor any) placeholder
fragment is produced; `decode_message_content` skips the segment. -/
theorem C3_counterexample_unknown_type :
    (decode_message_content ctxUnknownType [1] 1 {} false [] []).1 = none := by
  decide

/-- C3 (amended): a segment whose type id is not among the 15 known types
is skipped by `decode_message_content`'s per-segment interpreter (it
yields no fragment and no error); `_parse_single_segment` renders such a
segment, when it carries no market-face and no text field, as the fixed
placeholder `[消息]`, never an error. -/
theorem C3_unknown_type_skipped (ctx : Ctx) (cfg : ExportConfig) (itl : Bool)
    (mc sc : List (Int × String)) (seg : List (String × PBValue)) (n : Int)
    (htype : pbGet seg "45002" = some (.int n))
    (hunk : n ∉ MSG_TYPE_MAP.map (·.1)) :
    decodeOneSegment ctx cfg itl mc sc (.dict seg) = .ok none ∧
    (pbGet seg "80900" = none → pbGet seg "45101" = none →
      parse_single_segment cfg (.dict seg) = .ok "[消息]") := by
  have hcont : (MSG_TYPE_MAP.map (·.1)).contains n = false := by
    cases hc : (MSG_TYPE_MAP.map (·.1)).contains n
    · rfl
    · exact absurd (List.mem_of_elem_eq_true hc) hunk
  have hne : ∀ m ∈ (MSG_TYPE_MAP.map (·.1)), n ≠ m := fun m hm h => hunk (h ▸ hm)
  constructor
  · simp only [decodeOneSegment, htype, pyIntKeyMem, hcont, Bind.bind, Except.bind]
    simp
  · intro h80900 h45101
    have h6 : n ≠ 6 := hne 6 (by simp [MSG_TYPE_MAP])
    have h2 : n ≠ 2 := hne 2 (by simp [MSG_TYPE_MAP])
    have h3 : n ≠ 3 := hne 3 (by simp [MSG_TYPE_MAP])
    have h5 : n ≠ 5 := hne 5 (by simp [MSG_TYPE_MAP])
    have h4 : n ≠ 4 := hne 4 (by simp [MSG_TYPE_MAP])
    have h9 : n ≠ 9 := hne 9 (by simp [MSG_TYPE_MAP])
    have h11 : n ≠ 11 := hne 11 (by simp [MSG_TYPE_MAP])
    have h27 : n ≠ 27 := hne 27 (by simp [MSG_TYPE_MAP])
    have h28 : n ≠ 28 := hne 28 (by simp [MSG_TYPE_MAP])
    have htable : intTableGet MSG_TYPE_MAP n "消息" = "消息" :=
      intTableGet_not_mem MSG_TYPE_MAP n "消息"
        (fun p hp h => hunk (h ▸ (List.mem_map.mpr ⟨p, hp, rfl⟩)))
    simp [parse_single_segment, htype, pbEqInt, h6, h2, h3, h5, h4, h9, h11, h27, h28,
      h80900, h45101, htable]

/-- Witness for the amended C3 at a concrete unknown-type segment. -/
theorem C3_unknown_type_skipped_witness :
    decodeOneSegment ctxFail {} false [] [] (.dict [("45002", PBValue.int 99)]) = .ok none ∧
    (pbGet [("45002", PBValue.int 99)] "80900" = none →
      pbGet [("45002", PBValue.int 99)] "45101" = none →
      parse_single_segment {} (.dict [("45002", PBValue.int 99)]) = .ok "[消息]") :=
  C3_unknown_type_skipped ctxFail {} false [] [] [("45002", PBValue.int 99)] 99
    rfl (by decide)

/-- `sanitizeChars` on a non-newline head is a plain cons. -/
theorem sanitizeChars_cons_ne (b : Char) (hb : b ≠ '\n') (t : List Char) :
    sanitizeChars (b :: t) = b :: sanitizeChars t := by
  rw [sanitizeChars.eq_def]
  split <;> simp_all

/-- A prefix of sanitized text containing neither a newline nor an opening
bracket is already a prefix of the unsanitized text. -/
theorem prefix_of_sanitize (u : List Char) (hnl : ∀ c ∈ u, c ≠ '\n')
    (hbr : ∀ c ∈ u, c ≠ '[') : ∀ t, u <+: sanitizeChars t → u <+: t := by
  induction u with
  | nil => intro t _; exact List.nil_prefix
  | cons a u2 ih =>
    intro t hp
    cases t with
    | nil =>
      rw [show sanitizeChars [] = [] from rfl] at hp
      simp at hp
    | cons b t2 =>
      by_cases hb : b = '\n'
      · subst hb
        rw [sanitizeChars] at hp
        have : a = '[' := by
          have := (List.cons_prefix_cons.mp (by simpa [sentinelToken] using hp)).1
          exact this
        exact absurd this (hbr a (by simp))
      · rw [sanitizeChars_cons_ne b hb t2] at hp
        obtain ⟨hab, hp2⟩ := List.cons_prefix_cons.mp hp
        subst hab
        exact List.cons_prefix_cons.mpr ⟨rfl,
          ih (fun c hc => hnl c (by simp [hc])) (fun c hc => hbr c (by simp [hc])) t2 hp2⟩

/-- `desanitizeChars` on a cons that does not start the sentinel token is
a plain cons. -/
theorem desanitizeChars_cons_ne (c : Char) (l : List Char)
    (h : ¬ sentinelToken <+: (c :: l)) :
    desanitizeChars (c :: l) = c :: desanitizeChars l := by
  rw [desanitizeChars.eq_def]
  split
  · rename_i heq
    exfalso
    apply h
    rw [show (c :: l) = '[' :: '%' :: '\\' :: 'n' :: '%' :: ']' :: _ from heq]
    exact ⟨_, rfl⟩
  · rename_i c2 rest heq
    obtain ⟨h1, h2⟩ := List.cons.injEq _ _ _ _ ▸ heq
    rw [h1, h2]
  · simp_all

/-- Round trip of the newline sentinel: if the original text does not
already contain the literal token, back-substitution inverts rendering. -/
theorem desanitize_sanitize (l : List Char) (h : ¬ sentinelToken <:+: l) :
    desanitizeChars (sanitizeChars l) = l := by
  induction l with
  | nil => rfl
  | cons c t ih =>
    have ht : ¬ sentinelToken <:+: t := fun hi => h (List.infix_cons hi)
    by_cases hc : c = '\n'
    · subst hc
      rw [sanitizeChars]
      show desanitizeChars ('[' :: '%' :: '\\' :: 'n' :: '%' :: ']' :: sanitizeChars t) =
        '\n' :: t
      rw [desanitizeChars]
      rw [ih ht]
    · rw [sanitizeChars_cons_ne c hc t]
      have hnp : ¬ sentinelToken <+: (c :: sanitizeChars t) := by
        intro hpre
        obtain ⟨hca, hp5⟩ := List.cons_prefix_cons.mp hpre
        have h5 : ['%', '\\', 'n', '%', ']'] <+: t :=
          prefix_of_sanitize _ (by decide) (by decide) t hp5
        apply h
        have : sentinelToken <+: (c :: t) := by
          rw [← hca]
          exact List.cons_prefix_cons.mpr ⟨rfl, h5⟩
        exact this.isInfix
      rw [desanitizeChars_cons_ne c (sanitizeChars t) hnp, ih ht]

/-- A context that decodes any blob to one text segment whose content is
the blob itself. -/
def ctxEcho : Ctx :=
  { decodeMessage := fun cont =>
      some [("40800", PBValue.dict [("45002", PBValue.int 1), ("45101", PBValue.bytes cont)])]
    parseJson := fun _ => none
    getDisplayName := id
    myUid := "u_me" }

/-- Counterexample to C5 as stated: the text `"a\nb[%\n%]c"` (with a real
newline and a literal sentinel token) contains embedded newlines, renders
to its sanitized form, but substituting the sentinel token back does not
reproduce the original content. -/
theorem C5_counterexample_token_collision :
    (decode_message_content ctxEcho [97, 10, 98, 91, 37, 92, 110, 37, 93, 99] 2 {} false [] []).1 =
      some [Fragment.str (sanitize_newlines "a\nb[%\\n%]c")] ∧
    desanitizeStr (sanitize_newlines "a\nb[%\\n%]c") ≠ "a\nb[%\\n%]c" := by
  constructor
  · decide
  · decide

/-- C5 (amended): for a text whose content does not already contain the
literal sentinel token, rendering then substituting the token back
reproduces the content exactly; and the text message `"hello\nworld"`
renders as the single fragment `"hello[%\n%]world"`. -/
theorem C5_newline_roundtrip (s : String)
    (htok : ¬ sentinelToken <:+: s.data) (hnl : '\n' ∈ s.data) :
    desanitizeStr (sanitize_newlines s) = s ∧
    (decode_message_content ctxEcho [104, 101, 108, 108, 111, 10, 119, 111, 114, 108, 100]
        5 {} false [] []).1 = some [Fragment.str "hello[%\\n%]world"] := by
  constructor
  · obtain ⟨l⟩ := s
    simp only [desanitizeStr, sanitize_newlines]
    exact congrArg String.mk (desanitize_sanitize l htok)
  · decide

/-- Witness for the amended C5 at the concrete text `"x\ny"`. -/
theorem C5_newline_roundtrip_witness :
    desanitizeStr (sanitize_newlines "x\ny") = "x\ny" ∧
    (decode_message_content ctxEcho [104, 101, 108, 108, 111, 10, 119, 111, 114, 108, 100]
        5 {} false [] []).1 = some [Fragment.str "hello[%\\n%]world"] :=
  C5_newline_roundtrip "x\ny" (by decide) (by decide)

/-- A reply segment (message type 7) referencing original timestamp `t`,
carrying an embedded summary `sb` and an embedded original-message object
field `ov`. -/
def replySegment (t : Int) (sb : List Nat) (ov : PBValue) : List (String × PBValue) :=
  [("45002", PBValue.int 7), ("47404", PBValue.int t),
   ("47413", PBValue.bytes sb), ("47423", ov)]

/-- A message whose container holds one segment that interprets to a
truthy fragment renders as exactly that fragment. -/
theorem decode_single_segment_message (ctx : Ctx) (cfg : ExportConfig) (itl : Bool)
    (mc sc : List (Int × String)) (content : List Nat) (rts : Int)
    (seg : List (String × PBValue)) (p : Fragment)
    (hdec : ctx.decodeMessage content = some [("40800", PBValue.dict seg)])
    (hne : content ≠ [])
    (hone : decodeOneSegment ctx cfg itl mc sc (.dict seg) = .ok (some p))
    (htr : fragTruthy p = true) :
    (decode_message_content ctx content rts cfg itl mc sc).1 = some [p] := by
  have hC : content.isEmpty = false := by
    cases content with
    | nil => exact absurd rfl hne
    | cons a t => rfl
  simp [decode_message_content, hC, hdec, pbGet, containerSegments, decodeSegments,
    hone, htr, Bind.bind, Except.bind]

/-- Reply interpretation when the Quote-Resolution Cache has the
timestamp: the cache entry is the rendered original. -/
theorem reply_from_content_cache (ctx : Ctx) (cfg : ExportConfig)
    (mc sc : List (Int × String)) (t : Int) (sb : List Nat) (ov : PBValue) (c : String)
    (hc : cacheGet mc t = some c) :
    decodeOneSegment ctx cfg false mc sc (.dict (replySegment t sb ov)) =
      .ok (some (.str ("[引用->" ++ format_timestamp_pb (some (PBValue.int t)) ++ " " ++
        ctx.getDisplayName (get_placeholder "") ++ ": " ++ c ++ "]"))) := by
  simp [decodeOneSegment, replySegment, pbGet, List.find?, pyIntKeyMem, MSG_TYPE_MAP,
    pbEqInt, cacheGetPB, hc, Bind.bind, Except.bind, pbGetD, pbDecodeStrict,
    utf8DecodeStrict, utf8Go, format_timestamp_pb, get_placeholder]

/-- Reply interpretation when only the Salvage Cache has the timestamp:
the sanitized salvage entry is the rendered original. -/
theorem reply_from_salvage_cache (ctx : Ctx) (cfg : ExportConfig)
    (mc sc : List (Int × String)) (t : Int) (sb : List Nat) (ov : PBValue) (sv : String)
    (hc1 : cacheGet mc t = none) (hc2 : cacheGet sc t = some sv) :
    decodeOneSegment ctx cfg false mc sc (.dict (replySegment t sb ov)) =
      .ok (some (.str ("[引用->" ++ format_timestamp_pb (some (PBValue.int t)) ++ " " ++
        ctx.getDisplayName (get_placeholder "") ++ ": " ++ sanitize_newlines sv ++ "]"))) := by
  simp [decodeOneSegment, replySegment, pbGet, List.find?, pyIntKeyMem, MSG_TYPE_MAP,
    pbEqInt, cacheGetPB, hc1, hc2, Bind.bind, Except.bind, pbGetD, pbDecodeStrict,
    utf8DecodeStrict, utf8Go, format_timestamp_pb, get_placeholder]

/-- Reply interpretation when both caches miss and the embedded summary is
non-empty: the sanitized summary is the rendered original. -/
theorem reply_from_summary (ctx : Ctx) (cfg : ExportConfig)
    (mc sc : List (Int × String)) (t : Int) (sb : List Nat) (ov : PBValue)
    (hc1 : cacheGet mc t = none) (hc2 : cacheGet sc t = none)
    (hsum : sanitize_newlines (utf8DecodeIgnore sb) ≠ "") :
    decodeOneSegment ctx cfg false mc sc (.dict (replySegment t sb ov)) =
      .ok (some (.str ("[引用->" ++ format_timestamp_pb (some (PBValue.int t)) ++ " " ++
        ctx.getDisplayName (get_placeholder "") ++ ": " ++
        sanitize_newlines (utf8DecodeIgnore sb) ++ "]"))) := by
  simp [decodeOneSegment, replySegment, pbGet, List.find?, pyIntKeyMem, MSG_TYPE_MAP,
    pbEqInt, cacheGetPB, hc1, hc2, hsum, Bind.bind, Except.bind, pbGetD, pbDecodeIgnore,
    pbDecodeStrict, utf8DecodeStrict, utf8Go, format_timestamp_pb, get_placeholder]

/-- Reply interpretation when both caches miss and the summary is empty:
the embedded original-message object is interpreted recursively. -/
theorem reply_from_embedded_object (ctx : Ctx) (cfg : ExportConfig)
    (mc sc : List (Int × String)) (t : Int) (obj : List (String × PBValue)) (p : String)
    (hc1 : cacheGet mc t = none) (hc2 : cacheGet sc t = none)
    (hobj : obj ≠ [])
    (hp : parse_single_segment cfg (.dict obj) = .ok p) :
    decodeOneSegment ctx cfg false mc sc (.dict (replySegment t [] (.dict obj))) =
      .ok (some (.str ("[引用->" ++ format_timestamp_pb (some (PBValue.int t)) ++ " " ++
        ctx.getDisplayName (get_placeholder "") ++ ": " ++
        String.intercalate " " (List.filter (fun x => x != "") [p]) ++ "]"))) := by
  simp [decodeOneSegment, replySegment, pbGet, List.find?, pyIntKeyMem, MSG_TYPE_MAP,
    pbEqInt, cacheGetPB, hc1, hc2, hobj, hp, Bind.bind, Except.bind, pbGetD, pbDecodeIgnore,
    pbDecodeStrict, utf8DecodeStrict, utf8Go, format_timestamp_pb, get_placeholder,
    pyTruthy, containerSegments, List.mapM, List.mapM.loop, sanitize_newlines,
    sanitizeChars, utf8DecodeIgnore, pure, Except.pure]

/-- Appending a non-empty string never yields the empty string. -/
theorem str_append_ne_empty_right (u v : String) (hv : v ≠ "") : u ++ v ≠ "" := by
  intro h
  apply hv
  have h2 : u.data ++ v.data = [] := by
    rw [← String.data_append, h]
  have hd : v.data = [] := (List.append_eq_nil.mp h2).2
  obtain ⟨lv⟩ := v
  simp at hd
  simp [hd]

/-- Reply fragments are truthy (they end with a closing bracket). -/
theorem reply_frag_truthy (u : String) : fragTruthy (.str (u ++ "]")) = true := by
  simp [fragTruthy, bne_iff_ne]
  exact str_append_ne_empty_right u "]" (by decide)

/-- C2: for a reply segment referencing timestamp `t`, the rendered
original is chosen in strict priority order — Quote-Resolution Cache
first, then Salvage Cache, then the embedded summary, then (when the
summary is empty) a recursive render of the embedded original object. In
the cache-hit case the conclusion does not mention the summary at all: a
stale summary differing from the cache entry never reaches the output. -/
theorem C2_reply_priority (ctx : Ctx) (cfg : ExportConfig) (content : List Nat)
    (rts t : Int) (sb : List Nat) (ov : PBValue) (obj : List (String × PBValue))
    (mc sc : List (Int × String)) :
    (∀ c, ctx.decodeMessage content = some [("40800", PBValue.dict (replySegment t sb ov))] →
      content ≠ [] → cacheGet mc t = some c →
      (decode_message_content ctx content rts cfg false mc sc).1 =
        some [Fragment.str ("[引用->" ++ format_timestamp_pb (some (PBValue.int t)) ++ " " ++
          ctx.getDisplayName (get_placeholder "") ++ ": " ++ c ++ "]")]) ∧
    (∀ sv, ctx.decodeMessage content = some [("40800", PBValue.dict (replySegment t sb ov))] →
      content ≠ [] → cacheGet mc t = none → cacheGet sc t = some sv →
      (decode_message_content ctx content rts cfg false mc sc).1 =
        some [Fragment.str ("[引用->" ++ format_timestamp_pb (some (PBValue.int t)) ++ " " ++
          ctx.getDisplayName (get_placeholder "") ++ ": " ++ sanitize_newlines sv ++ "]")]) ∧
    (ctx.decodeMessage content = some [("40800", PBValue.dict (replySegment t sb ov))] →
      content ≠ [] → cacheGet mc t = none → cacheGet sc t = none →
      sanitize_newlines (utf8DecodeIgnore sb) ≠ "" →
      (decode_message_content ctx content rts cfg false mc sc).1 =
        some [Fragment.str ("[引用->" ++ format_timestamp_pb (some (PBValue.int t)) ++ " " ++
          ctx.getDisplayName (get_placeholder "") ++ ": " ++
          sanitize_newlines (utf8DecodeIgnore sb) ++ "]")]) ∧
    (∀ p, ctx.decodeMessage content =
        some [("40800", PBValue.dict (replySegment t [] (PBValue.dict obj)))] →
      content ≠ [] → cacheGet mc t = none → cacheGet sc t = none → obj ≠ [] →
      parse_single_segment cfg (.dict obj) = .ok p →
      (decode_message_content ctx content rts cfg false mc sc).1 =
        some [Fragment.str ("[引用->" ++ format_timestamp_pb (some (PBValue.int t)) ++ " " ++
          ctx.getDisplayName (get_placeholder "") ++ ": " ++
          String.intercalate " " (List.filter (fun x => x != "") [p]) ++ "]")]) := by
  refine ⟨?_, ?_, ?_, ?_⟩
  · intro c hdec hne hc
    exact decode_single_segment_message ctx cfg false mc sc content rts _ _ hdec hne
      (reply_from_content_cache ctx cfg mc sc t sb ov c hc) (reply_frag_truthy _)
  · intro sv hdec hne hc1 hc2
    exact decode_single_segment_message ctx cfg false mc sc content rts _ _ hdec hne
      (reply_from_salvage_cache ctx cfg mc sc t sb ov sv hc1 hc2) (reply_frag_truthy _)
  · intro hdec hne hc1 hc2 hsum
    exact decode_single_segment_message ctx cfg false mc sc content rts _ _ hdec hne
      (reply_from_summary ctx cfg mc sc t sb ov hc1 hc2 hsum) (reply_frag_truthy _)
  · intro p hdec hne hc1 hc2 hobj hp
    exact decode_single_segment_message ctx cfg false mc sc content rts _ _ hdec hne
      (reply_from_embedded_object ctx cfg mc sc t obj p hc1 hc2 hobj hp) (reply_frag_truthy _)

/-- A context that decodes any blob to one reply segment whose embedded
summary is the blob itself (original timestamp 5). -/
def ctxEchoReply : Ctx :=
  { decodeMessage := fun cont =>
      some [("40800", PBValue.dict (replySegment 5 cont (PBValue.int 0)))]
    parseJson := fun _ => none
    getDisplayName := id
    myUid := "u_me" }

/-- A context that decodes any blob to one reply segment with an empty
summary and an embedded original text object `"y"`. -/
def ctxObjReply : Ctx :=
  { decodeMessage := fun _ =>
      some [("40800", PBValue.dict (replySegment 5 []
        (PBValue.dict [("45002", PBValue.int 1), ("45101", PBValue.bytes [121])])))]
    parseJson := fun _ => none
    getDisplayName := id
    myUid := "u_me" }

/-- Witness for C2: the four priority cases at concrete inputs. -/
theorem C2_reply_priority_witness :
    ((decode_message_content ctxEchoReply [120] 9 {} false [(5, "ok")] []).1 =
      some [Fragment.str ("[引用->" ++ format_timestamp_pb (some (PBValue.int 5)) ++ " " ++
        ctxEchoReply.getDisplayName (get_placeholder "") ++ ": " ++ "ok" ++ "]")]) ∧
    ((decode_message_content ctxEchoReply [120] 9 {} false [] [(5, "sos")]).1 =
      some [Fragment.str ("[引用->" ++ format_timestamp_pb (some (PBValue.int 5)) ++ " " ++
        ctxEchoReply.getDisplayName (get_placeholder "") ++ ": " ++
        sanitize_newlines "sos" ++ "]")]) ∧
    ((decode_message_content ctxEchoReply [120] 9 {} false [] []).1 =
      some [Fragment.str ("[引用->" ++ format_timestamp_pb (some (PBValue.int 5)) ++ " " ++
        ctxEchoReply.getDisplayName (get_placeholder "") ++ ": " ++
        sanitize_newlines (utf8DecodeIgnore [120]) ++ "]")]) ∧
    ((decode_message_content ctxObjReply [1] 9 {} false [] []).1 =
      some [Fragment.str ("[引用->" ++ format_timestamp_pb (some (PBValue.int 5)) ++ " " ++
        ctxObjReply.getDisplayName (get_placeholder "") ++ ": " ++
        String.intercalate " " (List.filter (fun x => x != "") ["y"]) ++ "]")]) :=
  ⟨(C2_reply_priority ctxEchoReply {} [120] 9 5 [120] (PBValue.int 0) [] [(5, "ok")] []).1
      "ok" rfl (by decide) (by decide),
   (C2_reply_priority ctxEchoReply {} [120] 9 5 [120] (PBValue.int 0) [] [] [(5, "sos")]).2.1
      "sos" rfl (by decide) (by decide) (by decide),
   (C2_reply_priority ctxEchoReply {} [120] 9 5 [120] (PBValue.int 0) [] [] []).2.2.1
      rfl (by decide) (by decide) (by decide) (by decide),
   (C2_reply_priority ctxObjReply {} [1] 9 5 [] (PBValue.int 0)
      [("45002", PBValue.int 1), ("45101", PBValue.bytes [121])] [] []).2.2.2
      "y" rfl (by decide) (by decide) (by decide) (by simp) rfl⟩

/-- C8: gray-tip dispatch. An interactive notice is emitted only when the
poke toggle is on; a segment that is neither interactive nor a recall
yields nothing; a recall is suppressed when the recall toggle is off and
otherwise renders the recall message, whose suffix is appended only when
the suffix toggle is on and whose name comes from uid resolution, falling
back to the embedded literal name exactly when resolution returns the uid
unchanged. -/
theorem C8_gray_tip_dispatch (ctx : Ctx) (cfg : ExportConfig)
    (seg : List (String × PBValue)) :
    (∀ tip, decode_interactive_gray_tip ctx seg = some tip →
      decode_gray_tip ctx cfg seg = (if cfg.show_poke then some tip else none)) ∧
    (decode_interactive_gray_tip ctx seg = none → pbGet seg "47703" = none →
      decode_gray_tip ctx cfg seg = none) ∧
    (decode_interactive_gray_tip ctx seg = none → (pbGet seg "47703").isSome = true →
      cfg.show_recall = false → decode_gray_tip ctx cfg seg = none) ∧
    (decode_interactive_gray_tip ctx seg = none → (pbGet seg "47703").isSome = true →
      cfg.show_recall = true →
      decode_gray_tip ctx cfg seg = some (.str (recallMessage ctx cfg seg))) ∧
    (cfg.show_recall_suffix = false →
      recallMessage ctx cfg seg = "[" ++ recallDisplayName ctx seg ++ " 撤回了一条消息]") ∧
    (ctx.getDisplayName (recallerUidStr seg) ≠ recallerUidStr seg →
      recallDisplayName ctx seg = ctx.getDisplayName (recallerUidStr seg)) ∧
    (∀ nb, ctx.getDisplayName (recallerUidStr seg) = recallerUidStr seg →
      pbGet seg "47705" = some (.bytes nb) → utf8DecodeIgnore nb ≠ "" →
      recallDisplayName ctx seg = utf8DecodeIgnore nb) := by
  refine ⟨?_, ?_, ?_, ?_, ?_, ?_, ?_⟩
  · intro tip htip
    simp [decode_gray_tip, htip]
  · intro h1 h2
    simp [decode_gray_tip, h1, h2]
  · intro h1 h2 h3
    simp [decode_gray_tip, h1, h2, h3]
  · intro h1 h2 h3
    simp [decode_gray_tip, h1, h2, h3]
  · intro h
    have hs : recallSuffix cfg seg = "" := by simp [recallSuffix, h]
    rw [recallMessage, hs]
    have hif : ((if ("" : String) != "" then " " ++ ("" : String) else "") : String) = "" := rfl
    rw [hif, String.append_empty, String.append_assoc]
    congr 1
  · intro h
    simp [recallDisplayName, h]
  · intro nb h1 h2 h3
    simp [recallDisplayName, h1, h2, h3]

/-- An interactive gray-tip segment (a poke between users `a` and `b`). -/
def tipSeg : List (String × PBValue) :=
  [("48214", PBValue.bytes
    ("<qq uin=\"a\"/><qq uin=\"b\"/><nor txt=\"v\"/>".data.map Char.toNat))]

/-- A recall gray-tip segment by uid `u` with literal fallback name `n`. -/
def recallSeg : List (String × PBValue) :=
  [("47703", PBValue.bytes [117]), ("47705", PBValue.bytes [110])]

/-- A context whose resolver prefixes every uid (so resolution changes
the identifier). -/
def ctxRename : Ctx :=
  { decodeMessage := fun _ => none
    parseJson := fun _ => none
    getDisplayName := fun u => "N" ++ u
    myUid := "u_me" }

/-- Witness for C8 at concrete poke and recall segments. -/
theorem C8_gray_tip_dispatch_witness :
    (decode_gray_tip ctxEcho { show_poke := true } tipSeg =
      (if ({ show_poke := true } : ExportConfig).show_poke then
        some (Fragment.interactiveTip "a" "v" "b" "") else none)) ∧
    (decode_gray_tip ctxEcho {} [("45101", PBValue.bytes [120])] = none) ∧
    (decode_gray_tip ctxEcho {} recallSeg = none) ∧
    (decode_gray_tip ctxEcho { show_recall := true } recallSeg =
      some (.str (recallMessage ctxEcho { show_recall := true } recallSeg))) ∧
    (recallMessage ctxEcho { show_recall := true } recallSeg =
      "[" ++ recallDisplayName ctxEcho recallSeg ++ " 撤回了一条消息]") ∧
    (recallDisplayName ctxRename recallSeg = ctxRename.getDisplayName (recallerUidStr recallSeg)) ∧
    (recallDisplayName ctxEcho recallSeg = utf8DecodeIgnore [110]) :=
  ⟨(C8_gray_tip_dispatch ctxEcho { show_poke := true } tipSeg).1
      (Fragment.interactiveTip "a" "v" "b" "") (by decide),
   (C8_gray_tip_dispatch ctxEcho {} [("45101", PBValue.bytes [120])]).2.1 (by decide) rfl,
   (C8_gray_tip_dispatch ctxEcho {} recallSeg).2.2.1 (by decide) (by decide) rfl,
   (C8_gray_tip_dispatch ctxEcho { show_recall := true } recallSeg).2.2.2.1
      (by decide) (by decide) rfl,
   (C8_gray_tip_dispatch ctxEcho { show_recall := true } recallSeg).2.2.2.2.1 rfl,
   (C8_gray_tip_dispatch ctxRename { } recallSeg).2.2.2.2.2.1 (by decide),
   (C8_gray_tip_dispatch ctxEcho { } recallSeg).2.2.2.2.2.2 [110] (by decide) rfl (by decide)⟩

/-- C10: in the TXT and MD writers, a message whose first fragment is a
quote rendering (a string starting with the reply marker) is never stored
into the Quote-Resolution Cache under its timestamp: the cache threaded to
the remaining rows is unchanged, so a later reply that references a reply
message cannot resolve it from `MESSAGE_CONTENT_CACHE`. -/
theorem C10_reply_not_cached (ctx : Ctx) (cfg : ExportConfig) (itl : Bool)
    (r : Row) (rows : List Row) (mc sc sc2 : List (Int × String))
    (parts : List Fragment) (st : MdState)
    (hdec : decode_message_content ctx r.content r.ts cfg itl mc sc = (some parts, sc2))
    (hrep : isReplyFirst parts = true) :
    (write_txt_loop ctx cfg itl (r :: rows) mc sc).2.2.1 =
      (write_txt_loop ctx cfg itl rows mc sc2).2.2.1 ∧
    ∃ st2, (write_md_loop ctx cfg itl (r :: rows) mc sc st).2.2.1 =
      (write_md_loop ctx cfg itl rows mc sc2 st2).2.2.1 := by
  have hne : parts.isEmpty = false := by
    cases parts with
    | nil => simp [isReplyFirst] at hrep
    | cons a l => rfl
  constructor
  · simp only [write_txt_loop, hdec, hne]
    simp [hrep]
  · simp only [write_md_loop, hdec, hne]
    simp only [hrep]
    exact ⟨_, rfl⟩

/-- Witness for C10: one concrete reply row leaves the content cache that
reaches the remaining rows untouched in both writers. -/
theorem C10_reply_not_cached_witness :
    (write_txt_loop ctxEchoReply {} false [⟨9, "a", "b", [120]⟩] [] []).2.2.1 =
      (write_txt_loop ctxEchoReply {} false [] [] []).2.2.1 ∧
    ∃ st2, (write_md_loop ctxEchoReply {} false [⟨9, "a", "b", [120]⟩] [] [] {}).2.2.1 =
      (write_md_loop ctxEchoReply {} false [] [] [] st2).2.2.1 :=
  C10_reply_not_cached ctxEchoReply {} false ⟨9, "a", "b", [120]⟩ [] [] [] []
    [Fragment.str "[引用->1970-01-01 00:00:05 N/A: x]"] {} (by decide) (by decide)

/-! ## An induction principle for decoded values -/

/-- Structural induction over `PBValue` with member-wise hypotheses for
dict entries and list items. -/
theorem pb_induction (motive : PBValue → Prop)
    (hint : ∀ n, motive (.int n))
    (hbytes : ∀ bs, motive (.bytes bs))
    (hstr : ∀ s, motive (.str s))
    (hdict : ∀ d, (∀ p ∈ d, motive p.2) → motive (.dict d))
    (hlist : ∀ l, (∀ v ∈ l, motive v) → motive (.list l)) :
    ∀ v, motive v := fun v =>
  match v with
  | .int n => hint n
  | .bytes bs => hbytes bs
  | .str s => hstr s
  | .dict d => hdict d (fun p hp =>
      pb_induction motive hint hbytes hstr hdict hlist p.2)
  | .list l => hlist l (fun w hw =>
      pb_induction motive hint hbytes hstr hdict hlist w)
termination_by v => sizeOf v
decreasing_by
  · have h1 : sizeOf p < sizeOf d := List.sizeOf_lt_of_mem hp
    have h2 : sizeOf p.2 < sizeOf p := by
      obtain ⟨a, b⟩ := p
      simp
      try omega
    simp
    omega
  · have h1 : sizeOf w < sizeOf l := List.sizeOf_lt_of_mem hw
    simp
    omega

/-! ## Idempotence analysis of the Field Semantics Mapper -/

mutual
/-- No key at any nesting level is in the rename table's domain. -/
def noRenamedKeys (rm : List (String × String)) : PBValue → Bool
  | .dict d => noRenamedKeysD rm d
  | .list l => noRenamedKeysL rm l
  | _ => true

/-- Entry-wise form of `noRenamedKeys` on dict entries. -/
def noRenamedKeysD (rm : List (String × String)) : List (String × PBValue) → Bool
  | [] => true
  | (k, v) :: t =>
    (rm.find? (fun q => q.1 = k)).isNone && noRenamedKeys rm v && noRenamedKeysD rm t

/-- Item-wise form of `noRenamedKeys` on list items. -/
def noRenamedKeysL (rm : List (String × String)) : List PBValue → Bool
  | [] => true
  | v :: t => noRenamedKeys rm v && noRenamedKeysL rm t
end

/-- Keys of an association list are pairwise distinct. -/
def nodupKeys {α : Type} (l : List (String × α)) : Prop := (l.map Prod.fst).Nodup

/-- Membership after a Python dict assignment. -/
theorem pyInsert_mem {α : Type} : ∀ (l : List (String × α)) (k : String) (v : α) p,
    p ∈ pyInsert l k v → p ∈ l ∨ p = (k, v) := by
  intro l k v
  induction l with
  | nil => intro p hp; simp [pyInsert] at hp; exact Or.inr hp
  | cons q t ih =>
    obtain ⟨k0, v0⟩ := q
    intro p hp
    rw [pyInsert] at hp
    by_cases hk : k0 = k
    · rw [if_pos hk] at hp
      rcases List.mem_cons.mp hp with h1 | h2
      · exact Or.inr h1
      · exact Or.inl (List.mem_cons_of_mem _ h2)
    · rw [if_neg hk] at hp
      rcases List.mem_cons.mp hp with h1 | h2
      · exact Or.inl (h1 ▸ List.mem_cons_self _ _)
      · rcases ih p h2 with h3 | h4
        · exact Or.inl (List.mem_cons_of_mem _ h3)
        · exact Or.inr h4

/-- Keys after a Python dict assignment. -/
theorem pyInsert_keys {α : Type} : ∀ (l : List (String × α)) (k : String) (v : α) k1,
    k1 ∈ (pyInsert l k v).map Prod.fst → k1 ∈ l.map Prod.fst ∨ k1 = k := by
  intro l k v k1 h
  rcases List.mem_map.mp h with ⟨p, hp, hk1⟩
  rcases pyInsert_mem l k v p hp with h1 | h2
  · exact Or.inl (hk1 ▸ List.mem_map_of_mem _ h1)
  · subst h2
    exact Or.inr hk1.symm

/-- A Python dict assignment preserves key distinctness. -/
theorem pyInsert_nodup {α : Type} : ∀ (l : List (String × α)) (k : String) (v : α),
    nodupKeys l → nodupKeys (pyInsert l k v) := by
  intro l k v
  induction l with
  | nil =>
    intro _
    simp [pyInsert, nodupKeys]
  | cons q t ih =>
    obtain ⟨k0, v0⟩ := q
    intro hn
    rw [nodupKeys, List.map_cons, List.nodup_cons] at hn
    obtain ⟨hk0, ht⟩ := hn
    rw [pyInsert]
    by_cases hk : k0 = k
    · subst hk
      rw [if_pos rfl]
      rw [nodupKeys, List.map_cons, List.nodup_cons]
      exact ⟨hk0, ht⟩
    · rw [if_neg hk]
      rw [nodupKeys, List.map_cons, List.nodup_cons]
      constructor
      · intro hmem
        rcases pyInsert_keys t k v k0 hmem with h1 | h2
        · exact hk0 h1
        · exact hk h2
      · exact ih ht

/-- Python insertion of each entry of `e` in turn into `acc`. -/
def insertAll (acc : List (String × PBValue)) : List (String × PBValue) → List (String × PBValue)
  | [] => acc
  | (k, v) :: t => insertAll (pyInsert acc k v) t

/-- Insertion of entries whose keys all differ from the accumulator's
head leaves that head in place. -/
theorem insertAll_cons_out : ∀ (e acc : List (String × PBValue)) (k : String) (v : PBValue),
    (∀ p ∈ e, p.1 ≠ k) → insertAll ((k, v) :: acc) e = (k, v) :: insertAll acc e := by
  intro e
  induction e with
  | nil => intro acc k v _; rfl
  | cons q t ih =>
    obtain ⟨k2, v2⟩ := q
    intro acc k v h
    have hk2 : k2 ≠ k := h (k2, v2) (by simp)
    rw [insertAll, insertAll, pyInsert, if_neg (Ne.symm hk2)]
    exact ih (pyInsert acc k2 v2) k v (fun p hp => h p (by simp [hp]))

/-- Inserting a nodup-keyed entry list into the empty dict reproduces it. -/
theorem insertAll_nil : ∀ (e : List (String × PBValue)), nodupKeys e → insertAll [] e = e := by
  intro e
  induction e with
  | nil => intro _; rfl
  | cons q t ih =>
    obtain ⟨k, v⟩ := q
    intro hn
    rw [nodupKeys, List.map_cons, List.nodup_cons] at hn
    obtain ⟨hk, ht⟩ := hn
    rw [insertAll]
    show insertAll (pyInsert [] k v) t = (k, v) :: t
    rw [show pyInsert ([] : List (String × PBValue)) k v = [(k, v)] from rfl]
    rw [show ([(k, v)] : List (String × PBValue)) = (k, v) :: [] from rfl]
    rw [insertAll_cons_out t [] k v
      (fun p hp hh => hk (List.mem_map.mpr ⟨p, hp, hh⟩))]
    rw [ih ht]

/-- An unrenamed five-character key passes through `mapKeyValue`
untouched (it cannot be the eight-character name `MSG_TYPE`). -/
theorem mapKeyValue_unrenamed (rm : List (String × String)) (tm : List (Int × String))
    (k : String) (w : PBValue) (hf : rm.find? (fun q => q.1 = k) = none)
    (hl : k.length = 5) : mapKeyValue rm tm k w = (k, w) := by
  have hne : k ≠ "MSG_TYPE" := fun hh => absurd (hh ▸ hl) (by decide)
  simp [mapKeyValue, hf, hne]

/-- On entries that are kept, unrenamed and map-fixed, the `new_data` loop
is plain Python insertion. -/
theorem mapPBDict_fix (rm : List (String × String)) (tm : List (Int × String))
    (ig : List String) :
    ∀ (e acc : List (String × PBValue)),
    (∀ p ∈ e, ig.contains p.1 = false ∧ p.1.length = 5 ∧
      rm.find? (fun q => q.1 = p.1) = none ∧ map_protobuf_keys rm tm ig p.2 = p.2) →
    mapPBDict rm tm ig e acc = insertAll acc e := by
  intro e
  induction e with
  | nil => intro acc _; rfl
  | cons q t ih =>
    obtain ⟨k, v⟩ := q
    intro acc h
    obtain ⟨hig, hlen, hf, hfix⟩ := h (k, v) (by simp)
    dsimp only at hig hlen hf hfix
    have hcond : (ig.contains k || k.length != 5) = false := by
      rw [hig, hlen]
      decide
    rw [mapPBDict, insertAll]
    rw [if_neg (by rw [hcond]; simp)]
    rw [hfix, mapKeyValue_unrenamed rm tm k v hf hlen]
    exact ih (pyInsert acc k v) (fun p hp => h p (by simp [hp]))

/-- The `new_data` loop yields distinct keys. -/
theorem mapPBDict_nodup (rm : List (String × String)) (tm : List (Int × String))
    (ig : List String) :
    ∀ (e acc : List (String × PBValue)), nodupKeys acc →
      nodupKeys (mapPBDict rm tm ig e acc) := by
  intro e
  induction e with
  | nil => intro acc h; exact h
  | cons q t ih =>
    obtain ⟨k, v⟩ := q
    intro acc h
    rw [mapPBDict]
    by_cases hc : (ig.contains k || k.length != 5) = true
    · rw [if_pos hc]
      exact ih acc h
    · rw [if_neg hc]
      exact ih _ (pyInsert_nodup acc _ _ h)

/-- Every entry the `new_data` loop produces comes from the accumulator or
from a kept input entry via the per-key transform. -/
theorem mapPBDict_mem (rm : List (String × String)) (tm : List (Int × String))
    (ig : List String) :
    ∀ (e acc : List (String × PBValue)) p, p ∈ mapPBDict rm tm ig e acc →
      p ∈ acc ∨ ∃ k0 v0, (k0, v0) ∈ e ∧ ig.contains k0 = false ∧ k0.length = 5 ∧
        p = mapKeyValue rm tm k0 (map_protobuf_keys rm tm ig v0) := by
  intro e
  induction e with
  | nil => intro acc p hp; exact Or.inl hp
  | cons q t ih =>
    obtain ⟨k, v⟩ := q
    intro acc p hp
    rw [mapPBDict] at hp
    by_cases hc : (ig.contains k || k.length != 5) = true
    · rw [if_pos hc] at hp
      rcases ih acc p hp with h1 | ⟨k0, v0, hm, h3⟩
      · exact Or.inl h1
      · exact Or.inr ⟨k0, v0, by simp [hm], h3⟩
    · rw [if_neg hc] at hp
      have hco : (ig.contains k || k.length != 5) = false := by
        revert hc
        cases hb : (ig.contains k || k.length != 5) <;> simp
      obtain ⟨hig, hlen0⟩ := Bool.or_eq_false_iff.mp hco
      have hlen : k.length = 5 := by simpa using hlen0
      rcases ih _ p hp with h1 | ⟨k0, v0, hm, h3⟩
      · rcases pyInsert_mem acc _ _ p h1 with h4 | h5
        · exact Or.inl h4
        · exact Or.inr ⟨k, v, by simp, hig, hlen, h5⟩
      · exact Or.inr ⟨k0, v0, by simp [hm], h3⟩

/-- Entry-wise reading of `noRenamedKeysD`. -/
theorem noRenamedKeysD_mem (rm : List (String × String)) :
    ∀ e, noRenamedKeysD rm e = true → ∀ p ∈ e,
      rm.find? (fun q => q.1 = p.1) = none ∧ noRenamedKeys rm p.2 = true := by
  intro e
  induction e with
  | nil => intro _ p hp; simp at hp
  | cons q t ih =>
    obtain ⟨k, v⟩ := q
    intro h p hp
    rw [noRenamedKeysD] at h
    simp only [Bool.and_eq_true, Option.isNone_iff_eq_none] at h
    obtain ⟨⟨h1, h2⟩, h3⟩ := h
    rcases List.mem_cons.mp hp with h4 | h5
    · subst h4
      exact ⟨h1, h2⟩
    · exact ih h3 p h5

/-- Item-wise reading of `noRenamedKeysL`. -/
theorem noRenamedKeysL_mem (rm : List (String × String)) :
    ∀ l, noRenamedKeysL rm l = true → ∀ v ∈ l, noRenamedKeys rm v = true := by
  intro l
  induction l with
  | nil => intro _ v hv; simp at hv
  | cons w t ih =>
    intro h v hv
    rw [noRenamedKeysL] at h
    simp only [Bool.and_eq_true] at h
    obtain ⟨h1, h2⟩ := h
    rcases List.mem_cons.mp hv with h3 | h4
    · exact h3 ▸ h1
    · exact ih h2 v h4

/-- Itemwise idempotence lifts to the list branch of the mapper. -/
theorem mapPBItems_idem (rm : List (String × String)) (tm : List (Int × String))
    (ig : List String) :
    ∀ l, (∀ v ∈ l, map_protobuf_keys rm tm ig (map_protobuf_keys rm tm ig v) =
        map_protobuf_keys rm tm ig v) →
      mapPBItems rm tm ig (mapPBItems rm tm ig l) = mapPBItems rm tm ig l := by
  intro l
  induction l with
  | nil => intro _; rfl
  | cons v t ih =>
    intro h
    simp only [mapPBItems]
    rw [h v (by simp), ih (fun w hw => h w (by simp [hw]))]

/-- C4 (amended, positive part): on a decoded node none of whose keys (at
any nesting level) is in the rename table, the Field Semantics Mapper is
idempotent. -/
theorem C4_mapper_idempotent_on_unrenamed (rm : List (String × String))
    (tm : List (Int × String)) (ig : List String) (d : PBValue)
    (h : noRenamedKeys rm d = true) :
    map_protobuf_keys rm tm ig (map_protobuf_keys rm tm ig d) =
      map_protobuf_keys rm tm ig d := by
  revert h
  induction d using pb_induction with
  | hint n => intro _; rfl
  | hbytes bs => intro _; rfl
  | hstr s => intro _; rfl
  | hdict e ihm =>
    intro h
    have hall := noRenamedKeysD_mem rm e (by simpa [noRenamedKeys] using h)
    have h1 : map_protobuf_keys rm tm ig (.dict e) =
        .dict (mapPBDict rm tm ig e []) := rfl
    have h2 : map_protobuf_keys rm tm ig (.dict (mapPBDict rm tm ig e [])) =
        .dict (mapPBDict rm tm ig (mapPBDict rm tm ig e []) []) := rfl
    rw [h1, h2]
    congr 1
    rw [mapPBDict_fix rm tm ig (mapPBDict rm tm ig e []) []
      (fun p hp => by
        rcases mapPBDict_mem rm tm ig e [] p hp with h0 | ⟨k0, v0, hm, hig0, hlen0, hpe⟩
        · simp at h0
        · obtain ⟨hf0, hnr0⟩ := hall (k0, v0) hm
          dsimp only at hf0 hnr0
          rw [hpe, mapKeyValue_unrenamed rm tm k0 _ hf0 hlen0]
          exact ⟨hig0, hlen0, hf0, ihm (k0, v0) hm hnr0⟩)]
    exact insertAll_nil _ (mapPBDict_nodup rm tm ig e [] (by simp [nodupKeys]))
  | hlist l ihm =>
    intro h
    have hl := noRenamedKeysL_mem rm l (by simpa [noRenamedKeys] using h)
    have h1 : map_protobuf_keys rm tm ig (.list l) = .list (mapPBItems rm tm ig l) := rfl
    have h2 : map_protobuf_keys rm tm ig (.list (mapPBItems rm tm ig l)) =
        .list (mapPBItems rm tm ig (mapPBItems rm tm ig l)) := rfl
    rw [h1, h2]
    congr 1
    exact mapPBItems_idem rm tm ig l (fun v hv => ihm v hv (hl v hv))

/-- Counterexample to C4 as stated: mapping the message-type field renames
`45002` to `MSG_TYPE` (8 characters), and a second application drops that
key through the fixed-width filter, so `Mapper(Mapper(d)) ≠ Mapper(d)`. -/
theorem C4_counterexample_renamed_key_dropped :
    map_protobuf_keys proto_maps.PROTO_FIELD_MAP proto_maps.MSG_TYPE_MAP proto_maps.IGNORE_IDS
      (map_protobuf_keys proto_maps.PROTO_FIELD_MAP proto_maps.MSG_TYPE_MAP
        proto_maps.IGNORE_IDS (PBValue.dict [("45002", PBValue.int 1)])) ≠
    map_protobuf_keys proto_maps.PROTO_FIELD_MAP proto_maps.MSG_TYPE_MAP proto_maps.IGNORE_IDS
      (PBValue.dict [("45002", PBValue.int 1)]) := by
  intro hcontra
  have h1 : map_protobuf_keys proto_maps.PROTO_FIELD_MAP proto_maps.MSG_TYPE_MAP
      proto_maps.IGNORE_IDS (map_protobuf_keys proto_maps.PROTO_FIELD_MAP
        proto_maps.MSG_TYPE_MAP proto_maps.IGNORE_IDS
        (PBValue.dict [("45002", PBValue.int 1)])) = PBValue.dict [] := rfl
  have h2 : map_protobuf_keys proto_maps.PROTO_FIELD_MAP proto_maps.MSG_TYPE_MAP
      proto_maps.IGNORE_IDS (PBValue.dict [("45002", PBValue.int 1)]) =
      PBValue.dict [("MSG_TYPE", PBValue.str "文本")] := rfl
  rw [h1, h2] at hcontra
  simp at hcontra

/-- Witness for the amended C4 at a node with only unrenamed keys. -/
theorem C4_mapper_idempotent_witness :
    map_protobuf_keys proto_maps.PROTO_FIELD_MAP proto_maps.MSG_TYPE_MAP proto_maps.IGNORE_IDS
      (map_protobuf_keys proto_maps.PROTO_FIELD_MAP proto_maps.MSG_TYPE_MAP
        proto_maps.IGNORE_IDS
        (PBValue.dict [("45005", PBValue.dict [("45010", PBValue.int 3)])])) =
    map_protobuf_keys proto_maps.PROTO_FIELD_MAP proto_maps.MSG_TYPE_MAP proto_maps.IGNORE_IDS
      (PBValue.dict [("45005", PBValue.dict [("45010", PBValue.int 3)])]) :=
  C4_mapper_idempotent_on_unrenamed proto_maps.PROTO_FIELD_MAP proto_maps.MSG_TYPE_MAP
    proto_maps.IGNORE_IDS (PBValue.dict [("45005", PBValue.dict [("45010", PBValue.int 3)])])
    rfl

/-! ## Key-shape invariants of the Field Semantics Mapper -/

mutual
/-- Every key at every nesting level satisfies `p`. -/
def keysAllP (p : String → Bool) : PBValue → Bool
  | .dict d => keysAllD p d
  | .list l => keysAllL p l
  | _ => true

/-- Entry-wise form of `keysAllP` on dict entries. -/
def keysAllD (p : String → Bool) : List (String × PBValue) → Bool
  | [] => true
  | (k, v) :: t => p k && keysAllP p v && keysAllD p t

/-- Item-wise form of `keysAllP` on list items. -/
def keysAllL (p : String → Bool) : List PBValue → Bool
  | [] => true
  | v :: t => keysAllP p v && keysAllL p t
end

/-- Building `keysAllD` from member-wise facts. -/
theorem keysAllD_of_mem (p : String → Bool) :
    ∀ e, (∀ q ∈ e, p q.1 = true ∧ keysAllP p q.2 = true) → keysAllD p e = true := by
  intro e
  induction e with
  | nil => intro _; rfl
  | cons q t ih =>
    obtain ⟨k, v⟩ := q
    intro h
    obtain ⟨h1, h2⟩ := h (k, v) (by simp)
    rw [keysAllD]
    simp only [Bool.and_eq_true]
    exact ⟨⟨h1, h2⟩, ih (fun w hw => h w (by simp [hw]))⟩

/-- Building `keysAllL` from member-wise facts. -/
theorem keysAllL_of_mem (p : String → Bool) :
    ∀ l, (∀ v ∈ l, keysAllP p v = true) → keysAllL p l = true := by
  intro l
  induction l with
  | nil => intro _; rfl
  | cons v t ih =>
    intro h
    rw [keysAllL]
    simp only [Bool.and_eq_true]
    exact ⟨h v (by simp), ih (fun w hw => h w (by simp [hw]))⟩

/-- Every item the list branch of the mapper produces is the image of an
input item. -/
theorem mapPBItems_mem (rm : List (String × String)) (tm : List (Int × String))
    (ig : List String) :
    ∀ l w, w ∈ mapPBItems rm tm ig l → ∃ v ∈ l, w = map_protobuf_keys rm tm ig v := by
  intro l
  induction l with
  | nil => intro w hw; simp [mapPBItems] at hw
  | cons v t ih =>
    intro w hw
    rw [mapPBItems] at hw
    rcases List.mem_cons.mp hw with hh | hh
    · exact ⟨v, by simp, hh⟩
    · obtain ⟨v2, hv2, he⟩ := ih w hh
      exact ⟨v2, by simp [hv2], he⟩

/-- The key produced by the per-key transform is either a rename-table
name or the original (kept, five-character) identifier, and is never on
the ignore list when the rename table's names avoid it. -/
theorem mapKeyValue_key_prop (rm : List (String × String)) (tm : List (Int × String))
    (ig : List String) (hrm : ∀ q ∈ rm, ig.contains q.2 = false)
    (k0 : String) (w : PBValue) (hig : ig.contains k0 = false) (hlen : k0.length = 5) :
    (!(ig.contains (mapKeyValue rm tm k0 w).1) &&
      (rm.any (fun q => q.2 = (mapKeyValue rm tm k0 w).1) ||
        (mapKeyValue rm tm k0 w).1.length == 5)) = true := by
  have hkey : (mapKeyValue rm tm k0 w).1 =
      (((rm.find? (fun q => q.1 = k0)).map (·.2)).getD k0) := rfl
  rcases hf : rm.find? (fun q => q.1 = k0) with _ | pr
  · rw [hkey, hf]
    show (!(ig.contains k0) && (rm.any (fun q => q.2 = k0) || k0.length == 5)) = true
    rw [hig, hlen]
    simp
  · have hmem : pr ∈ rm := List.mem_of_find?_eq_some hf
    rw [hkey, hf]
    show (!(ig.contains pr.2) && (rm.any (fun q => q.2 = pr.2) || pr.2.length == 5)) = true
    rw [hrm pr hmem]
    simp only [Bool.not_false, Bool.true_and]
    have : rm.any (fun q => q.2 = pr.2) = true := List.any_eq_true.mpr ⟨pr, hmem, by simp⟩
    rw [this]
    simp

/-- The value produced by the per-key transform keeps the all-keys
invariant: it is the mapped value or a scalar enum label. -/
theorem mapKeyValue_val_prop (rm : List (String × String)) (tm : List (Int × String))
    (p : String → Bool) (k0 : String) (w : PBValue) (hw : keysAllP p w = true) :
    keysAllP p (mapKeyValue rm tm k0 w).2 = true := by
  have hval : (mapKeyValue rm tm k0 w).2 =
      (if (((rm.find? (fun q => q.1 = k0)).map (·.2)).getD k0) = "MSG_TYPE" then
        enumTranslate tm w else w) := rfl
  rw [hval]
  by_cases hm : (((rm.find? (fun q => q.1 = k0)).map (·.2)).getD k0) = "MSG_TYPE"
  · rw [if_pos hm]
    cases w with
    | int n =>
      rcases hf : tm.find? (fun q => q.1 = n) with _ | pr
      · simp [enumTranslate, hf, keysAllP]
      · simp [enumTranslate, hf, keysAllP]
    | bytes bs => exact hw
    | str s => exact hw
    | dict d => exact hw
    | list l => exact hw
  · rw [if_neg hm]
    exact hw

/-- C6 (amended): at every nesting level of the Mapper's output, no
ignore-listed key occurs (provided the rename table's names avoid the
ignore list), and every key is either a rename-table name or a kept
five-character identifier. -/
theorem C6_output_key_invariant (rm : List (String × String)) (tm : List (Int × String))
    (ig : List String) (hrm : ∀ q ∈ rm, ig.contains q.2 = false) (d : PBValue) :
    keysAllP (fun k => !(ig.contains k) && (rm.any (fun q => q.2 = k) || k.length == 5))
      (map_protobuf_keys rm tm ig d) = true := by
  induction d using pb_induction with
  | hint n => rfl
  | hbytes bs => rfl
  | hstr s => rfl
  | hdict e ihm =>
    have h1 : map_protobuf_keys rm tm ig (.dict e) =
        .dict (mapPBDict rm tm ig e []) := rfl
    rw [h1]
    show keysAllD _ (mapPBDict rm tm ig e []) = true
    apply keysAllD_of_mem
    intro q hq
    rcases mapPBDict_mem rm tm ig e [] q hq with h0 | ⟨k0, v0, hm, hig0, hlen0, hpe⟩
    · simp at h0
    · constructor
      · rw [hpe]
        exact mapKeyValue_key_prop rm tm ig hrm k0 _ hig0 hlen0
      · rw [hpe]
        exact mapKeyValue_val_prop rm tm _ k0 _ (ihm (k0, v0) hm)
  | hlist l ihm =>
    have h1 : map_protobuf_keys rm tm ig (.list l) = .list (mapPBItems rm tm ig l) := rfl
    rw [h1]
    show keysAllL _ (mapPBItems rm tm ig l) = true
    apply keysAllL_of_mem
    intro w hw
    obtain ⟨v, hv, rfl⟩ := mapPBItems_mem rm tm ig l w hw
    exact ihm v hv

/-- Counterexample to C6 as stated: the Mapper's output contains the key
`MSG_TYPE`, whose identifier string does not match the fixed-width
numeric-id shape (it has 8 characters, not 5). -/
theorem C6_counterexample_renamed_key_shape :
    map_protobuf_keys proto_maps.PROTO_FIELD_MAP proto_maps.MSG_TYPE_MAP proto_maps.IGNORE_IDS
      (PBValue.dict [("45002", PBValue.int 1)]) =
      PBValue.dict [("MSG_TYPE", PBValue.str "文本")] ∧
    ("MSG_TYPE".length = 5 → False) :=
  ⟨rfl, by decide⟩

/-- Witness for the amended C6 at a concrete mixed node (one renamed key,
one ignore-listed key, one malformed key, one kept plain key). -/
theorem C6_output_key_invariant_witness :
    keysAllP (fun k => !(proto_maps.IGNORE_IDS.contains k) &&
        (proto_maps.PROTO_FIELD_MAP.any (fun q => q.2 = k) || k.length == 5))
      (map_protobuf_keys proto_maps.PROTO_FIELD_MAP proto_maps.MSG_TYPE_MAP
        proto_maps.IGNORE_IDS
        (PBValue.dict [("45002", PBValue.int 1), ("40093", PBValue.int 2),
          ("abc", PBValue.int 3), ("45010", PBValue.bytes [1])])) = true :=
  C6_output_key_invariant proto_maps.PROTO_FIELD_MAP proto_maps.MSG_TYPE_MAP
    proto_maps.IGNORE_IDS (by decide)
    (PBValue.dict [("45002", PBValue.int 1), ("40093", PBValue.int 2),
      ("abc", PBValue.int 3), ("45010", PBValue.bytes [1])])

/-- One kept entry maps to exactly its per-key transform. -/
theorem map_single_entry (rm : List (String × String)) (tm : List (Int × String))
    (ig : List String) (k : String) (v : PBValue)
    (hig : ig.contains k = false) (hlen : k.length = 5) :
    map_protobuf_keys rm tm ig (.dict [(k, v)]) =
      .dict [mapKeyValue rm tm k (map_protobuf_keys rm tm ig v)] := by
  have h1 : map_protobuf_keys rm tm ig (.dict [(k, v)]) =
      .dict (mapPBDict rm tm ig [(k, v)] []) := rfl
  have hcond : (ig.contains k || k.length != 5) = false := by
    rw [hig, hlen]
    decide
  rw [h1, mapPBDict, if_neg (by rw [hcond]; simp)]
  rfl

/-- C7: at one mapping level, a key present in the id-to-name table is
renamed and any other kept key retains its identifier unchanged; for the
`MSG_TYPE` field, a known integer value becomes its label and an unknown
integer stays the raw integer. -/
theorem C7_rename_and_enum (rm : List (String × String)) (tm : List (Int × String))
    (ig : List String) (k : String) (v : PBValue)
    (hig : ig.contains k = false) (hlen : k.length = 5) :
    (∀ nm, ((rm.find? (fun q => q.1 = k)).map (·.2)) = some nm → nm ≠ "MSG_TYPE" →
      map_protobuf_keys rm tm ig (.dict [(k, v)]) =
        .dict [(nm, map_protobuf_keys rm tm ig v)]) ∧
    (∀ n lbl, ((rm.find? (fun q => q.1 = k)).map (·.2)) = some "MSG_TYPE" →
      v = PBValue.int n → ((tm.find? (fun q => q.1 = n)).map (·.2)) = some lbl →
      map_protobuf_keys rm tm ig (.dict [(k, v)]) =
        .dict [("MSG_TYPE", PBValue.str lbl)]) ∧
    (∀ n, ((rm.find? (fun q => q.1 = k)).map (·.2)) = some "MSG_TYPE" →
      v = PBValue.int n → ((tm.find? (fun q => q.1 = n)).map (·.2)) = none →
      map_protobuf_keys rm tm ig (.dict [(k, v)]) =
        .dict [("MSG_TYPE", PBValue.int n)]) ∧
    (((rm.find? (fun q => q.1 = k)).map (·.2)) = none →
      map_protobuf_keys rm tm ig (.dict [(k, v)]) =
        .dict [(k, map_protobuf_keys rm tm ig v)]) := by
  refine ⟨?_, ?_, ?_, ?_⟩
  · intro nm hf hne
    rw [map_single_entry rm tm ig k v hig hlen]
    rw [mapKeyValue]
    rw [hf]
    simp [hne]
  · intro n lbl hf hv htm
    subst hv
    rw [map_single_entry rm tm ig k (PBValue.int n) hig hlen]
    rw [mapKeyValue, hf]
    rcases hfind : tm.find? (fun q => q.1 = n) with _ | pr
    · rw [hfind] at htm
      simp at htm
    · rw [hfind] at htm
      simp at htm
      have h2 : map_protobuf_keys rm tm ig (PBValue.int n) = PBValue.int n := rfl
      simp [h2, enumTranslate, hfind, htm]
  · intro n hf hv htm
    subst hv
    rw [map_single_entry rm tm ig k (PBValue.int n) hig hlen]
    rw [mapKeyValue, hf]
    rcases hfind : tm.find? (fun q => q.1 = n) with _ | pr
    · have h2 : map_protobuf_keys rm tm ig (PBValue.int n) = PBValue.int n := rfl
      simp [h2, enumTranslate, hfind]
    · rw [hfind] at htm
      simp at htm
  · intro hf
    rw [map_single_entry rm tm ig k v hig hlen]
    rw [mapKeyValue, hf]
    have hne : k ≠ "MSG_TYPE" := fun hh => absurd (hh ▸ hlen) (by decide)
    simp [hne]

/-- Witness for C7: the four per-key cases at concrete table entries. -/
theorem C7_rename_and_enum_witness :
    (map_protobuf_keys proto_maps.PROTO_FIELD_MAP proto_maps.MSG_TYPE_MAP
        proto_maps.IGNORE_IDS (PBValue.dict [("45101", PBValue.bytes [104])]) =
      PBValue.dict [("TEXT_CONTENT", map_protobuf_keys proto_maps.PROTO_FIELD_MAP
        proto_maps.MSG_TYPE_MAP proto_maps.IGNORE_IDS (PBValue.bytes [104]))]) ∧
    (map_protobuf_keys proto_maps.PROTO_FIELD_MAP proto_maps.MSG_TYPE_MAP
        proto_maps.IGNORE_IDS (PBValue.dict [("45002", PBValue.int 1)]) =
      PBValue.dict [("MSG_TYPE", PBValue.str "文本")]) ∧
    (map_protobuf_keys proto_maps.PROTO_FIELD_MAP proto_maps.MSG_TYPE_MAP
        proto_maps.IGNORE_IDS (PBValue.dict [("45002", PBValue.int 999)]) =
      PBValue.dict [("MSG_TYPE", PBValue.int 999)]) ∧
    (map_protobuf_keys proto_maps.PROTO_FIELD_MAP proto_maps.MSG_TYPE_MAP
        proto_maps.IGNORE_IDS (PBValue.dict [("45005", PBValue.int 7)]) =
      PBValue.dict [("45005", map_protobuf_keys proto_maps.PROTO_FIELD_MAP
        proto_maps.MSG_TYPE_MAP proto_maps.IGNORE_IDS (PBValue.int 7))]) :=
  ⟨(C7_rename_and_enum proto_maps.PROTO_FIELD_MAP proto_maps.MSG_TYPE_MAP
      proto_maps.IGNORE_IDS "45101" (PBValue.bytes [104]) (by decide) (by decide)).1
      "TEXT_CONTENT" rfl (by decide),
   (C7_rename_and_enum proto_maps.PROTO_FIELD_MAP proto_maps.MSG_TYPE_MAP
      proto_maps.IGNORE_IDS "45002" (PBValue.int 1) (by decide) (by decide)).2.1
      1 "文本" rfl rfl rfl,
   (C7_rename_and_enum proto_maps.PROTO_FIELD_MAP proto_maps.MSG_TYPE_MAP
      proto_maps.IGNORE_IDS "45002" (PBValue.int 999) (by decide) (by decide)).2.2.1
      999 rfl rfl rfl,
   (C7_rename_and_enum proto_maps.PROTO_FIELD_MAP proto_maps.MSG_TYPE_MAP
      proto_maps.IGNORE_IDS "45005" (PBValue.int 7) (by decide) (by decide)).2.2.2
      rfl⟩
